import Mathlib

/-!
# Verification of the affine-transform strategy family (geomag-algorithms)

Shallow embedding of `geomagio/adjusted/Transform.py` and of the refactored
helpers in `geomagio/adjusted/transform/` (TranslateOrigins.py,
ZRotationHScaleZBaseline.py), together with proofs of the spec claims about
them.

Modelling conventions:
* Machine floats are modelled as exact rationals `ℚ`; the IEEE NaN sentinel
  is modelled at the matrix level: result matrices have entries `Option ℚ`,
  where `none` stands for NaN and `some q` for the finite number `q`.
  The all-NaN 4x4 degenerate result is `nanMatrix` below.
* The external numeric library routines (`np.sqrt`, `np.exp`, `spl.lstsq`,
  `np.linalg.svd`, `np.linalg.qr`) are oracles: they enter each embedded
  function as an explicit function parameter, and theorems hypothesise only
  documented properties of their outputs (e.g. `sqrt 1 = 1`, orthogonality
  of SVD factors, minimum-norm least-squares optimality).
* A stacked vector of length `3 * N` (the interleaved layout
  `[x0, y0, z0, x1, y1, z1, ...]` produced by `np.vstack(...).T.ravel()`)
  is indexed by `Fin N × Fin 3`: the pair `(k, c)` is source column
  `3 * k + c`, so the numpy slice `[c::3]` is exactly the set of indices
  whose second component is `c`.
* Python exceptions are modelled by `Option`/`none` on the result type of
  the function that raises.
-/

open Matrix

/-- A 4x4 result matrix: entries are `some q` (finite float) or `none` (NaN). -/
abbrev Mat4 : Type := Matrix (Fin 4) (Fin 4) (Option ℚ)

/-- `np.nan * np.ones((4, 4))`: the all-NaN degenerate sentinel. -/
def nanMatrix : Mat4 := Matrix.of fun _ _ => (none : Option ℚ)

/-- View a fully numeric 4x4 matrix as a result matrix (every entry finite). -/
def toNum (A : Matrix (Fin 4) (Fin 4) ℚ) : Mat4 := Matrix.of fun i j => some (A i j)

/-- The top-left 3x3 linear block of a numeric affine matrix. -/
def linear3 (A : Matrix (Fin 4) (Fin 4) ℚ) : Matrix (Fin 3) (Fin 3) ℚ :=
  Matrix.of fun i j => A i.castSucc j.castSucc

/-- `np.linalg.det` on a 3x3 matrix (cofactor expansion along the first row). -/
def det3 (A : Matrix (Fin 3) (Fin 3) ℚ) : ℚ :=
  A 0 0 * (A 1 1 * A 2 2 - A 1 2 * A 2 1)
    - A 0 1 * (A 1 0 * A 2 2 - A 1 2 * A 2 0)
    + A 0 2 * (A 1 0 * A 2 1 - A 1 1 * A 2 0)

/-- `np.linalg.det` on a 2x2 matrix. -/
def det2 (A : Matrix (Fin 2) (Fin 2) ℚ) : ℚ :=
  A 0 0 * A 1 1 - A 0 1 * A 1 0

namespace Transform

/-- `Transform.get_weights` (Transform.py lines 19-47).

`expf` is the oracle for `np.exp`; `memory` is the `memory` attribute with
`none` standing for `np.inf` (the default); `time?` is the optional reference
time (`time=None` by default).

`time = float(max(times))` raises `ValueError` on an empty sequence, which is
modelled by returning `none`.  The two mask assignments
`weights[times <= time] = exp((times - time) / memory)` and then
`weights[times >= time] = exp((time - times) / memory)` leave, for each
sample `s`, the value of the second assignment when `time ≤ s` and the value
of the first one when `s < time`; every index is covered because the masks
together are exhaustive over a linear order. -/
def get_weights (expf : ℚ → ℚ) (memory : Option ℚ) (times : List ℚ)
    (time? : Option ℚ) : Option (List ℚ) :=
  match time?.orElse (fun _ => times.max?) with
  | none => none
  | some time =>
    match memory with
    | none =>
      -- if np.isinf(self.memory): return np.ones(times.shape)
      some (times.map fun _ => 1)
    | some m =>
      some (times.map fun s =>
        if time ≤ s then expf ((time - s) / m) else expf ((s - time) / m))

end Transform

/-- The result of `scipy.linalg.lstsq(a, b)` with a vector right-hand side:
the minimum-norm least-squares coefficient vector `M_r` and the effective
numerical rank `rank` (the residual and singular values returned by scipy are
unused by the source and are omitted).  `a` has one row per stacked sample
slot (index `Fin N × Fin 3`) and one column per unknown. -/
abbrev LstsqOracle (N m : ℕ) : Type :=
  Matrix (Fin N × Fin 3) (Fin m) ℚ → ((Fin N × Fin 3) → ℚ) → (Fin m → ℚ) × ℕ

namespace LeastSq

/-- `LeastSq.get_stacked_absolutes` (Transform.py lines 69-80):
`np.vstack([absolutes[0], absolutes[1], absolutes[2]]).T.ravel()`, i.e. the
interleaved vector whose slot `(k, c)` (source index `3 * k + c`) holds
`absolutes[c][k]`. -/
def get_stacked_absolutes {N : ℕ} (absolutes : Fin 3 → Fin N → ℚ) :
    (Fin N × Fin 3) → ℚ :=
  fun p => absolutes p.2 p.1

/-- `LeastSq.get_weighted_values` (Transform.py lines 82-102) applied to a
1-D stacked vector.  `sqrtf` is the oracle for `np.sqrt`.  `None` weights
leave the values untouched; otherwise the weights are square-rooted,
replicated across the 3 channels (`np.vstack((w,w,w)).T.ravel()`, so slot
`(k, c)` gets factor `sqrt (w k)`) and multiplied in elementwise. -/
def get_weighted_values (sqrtf : ℚ → ℚ) {N : ℕ} (values : (Fin N × Fin 3) → ℚ)
    (weights : Option (Fin N → ℚ)) : (Fin N × Fin 3) → ℚ :=
  match weights with
  | none => values
  | some w => fun p => values p * sqrtf (w p.1)

/-- `LeastSq.get_weighted_values` applied to a 2-D array (`values` of shape
`(m, 3 * N)`): numpy broadcasting multiplies every row elementwise by the
same stacked weight vector, scaling column `(k, c)` by `sqrt (w k)`. -/
def get_weighted_values_mat (sqrtf : ℚ → ℚ) {m N : ℕ}
    (values : Matrix (Fin m) (Fin N × Fin 3) ℚ) (weights : Option (Fin N → ℚ)) :
    Matrix (Fin m) (Fin N × Fin 3) ℚ :=
  match weights with
  | none => values
  | some w => Matrix.of fun i p => values i p * sqrtf (w p.1)

end LeastSq

namespace NoConstraints

/-- The 12-row independent-variable matrix of `NoConstraints.calculate`
(Transform.py lines 160-172).  Row block `4 * c .. 4 * c + 3` is nonzero
exactly on the columns `[c::3]` (second component `c`), holding
`ordinates[0]`, `ordinates[1]`, `ordinates[2]` and the constant `1.0`. -/
def ord_stacked {N : ℕ} (ordinates : Fin 3 → Fin N → ℚ) :
    Matrix (Fin 12) (Fin N × Fin 3) ℚ :=
  Matrix.of fun i p =>
    if (i : ℕ) / 4 = (p.2 : ℕ) then
      match (i : ℕ) % 4 with
      | 0 => ordinates 0 p.1
      | 1 => ordinates 1 p.1
      | 2 => ordinates 2 p.1
      | _ => 1
    else 0

/-- `NoConstraints.calculate` (Transform.py lines 139-190). -/
def calculate (sqrtf : ℚ → ℚ) {N : ℕ} (lstsq : LstsqOracle N 12)
    (ordinates absolutes : Fin 3 → Fin N → ℚ) (weights : Option (Fin N → ℚ)) :
    Mat4 :=
  let abs_stacked := LeastSq.get_stacked_absolutes absolutes
  let ord_w := LeastSq.get_weighted_values_mat sqrtf (ord_stacked ordinates) weights
  let abs_w := LeastSq.get_weighted_values sqrtf abs_stacked weights
  let res := lstsq ord_wᵀ abs_w
  let M_r := res.1
  if res.2 < 3 then nanMatrix
  else toNum !![M_r 0, M_r 1, M_r 2, M_r 3;
                M_r 4, M_r 5, M_r 6, M_r 7;
                M_r 8, M_r 9, M_r 10, M_r 11;
                0, 0, 0, 1]

end NoConstraints

namespace ZRotationShear

/-- The 8-row independent-variable matrix of `ZRotationShear.calculate`
(Transform.py lines 210-218). -/
def ord_stacked {N : ℕ} (ordinates : Fin 3 → Fin N → ℚ) :
    Matrix (Fin 8) (Fin N × Fin 3) ℚ :=
  Matrix.of fun i p =>
    match (i : ℕ), (p.2 : ℕ) with
    | 0, 0 => ordinates 0 p.1      -- ord_stacked[0, 0::3] = ordinates[0]
    | 1, 0 => ordinates 1 p.1      -- ord_stacked[1, 0::3] = ordinates[1]
    | 2, 0 => 1                    -- ord_stacked[2, 0::3] = 1.0
    | 3, 1 => ordinates 0 p.1      -- ord_stacked[3, 1::3] = ordinates[0]
    | 4, 1 => ordinates 1 p.1      -- ord_stacked[4, 1::3] = ordinates[1]
    | 5, 1 => 1                    -- ord_stacked[5, 1::3] = 1.0
    | 6, 2 => ordinates 2 p.1      -- ord_stacked[6, 2::3] = ordinates[2]
    | 7, 2 => 1                    -- ord_stacked[7, 2::3] = 1.0
    | _, _ => 0

/-- `ZRotationShear.calculate` (Transform.py lines 193-235). -/
def calculate (sqrtf : ℚ → ℚ) {N : ℕ} (lstsq : LstsqOracle N 8)
    (ordinates absolutes : Fin 3 → Fin N → ℚ) (weights : Option (Fin N → ℚ)) :
    Mat4 :=
  let abs_stacked := LeastSq.get_stacked_absolutes absolutes
  let ord_w := LeastSq.get_weighted_values_mat sqrtf (ord_stacked ordinates) weights
  let abs_w := LeastSq.get_weighted_values sqrtf abs_stacked weights
  let res := lstsq ord_wᵀ abs_w
  let M_r := res.1
  if res.2 < 3 then nanMatrix
  else toNum !![M_r 0, M_r 1, 0, M_r 2;
                M_r 3, M_r 4, 0, M_r 5;
                0, 0, M_r 6, M_r 7;
                0, 0, 0, 1]

end ZRotationShear

namespace ZRotationHscale

/-- The 6-row independent-variable matrix of `ZRotationHscale.calculate`
(Transform.py lines 257-265). -/
def ord_stacked {N : ℕ} (ordinates : Fin 3 → Fin N → ℚ) :
    Matrix (Fin 6) (Fin N × Fin 3) ℚ :=
  Matrix.of fun i p =>
    match (i : ℕ), (p.2 : ℕ) with
    | 0, 0 => ordinates 0 p.1      -- ord_stacked[0, 0::3] = ordinates[0]
    | 0, 1 => ordinates 1 p.1      -- ord_stacked[0, 1::3] = ordinates[1]
    | 1, 0 => ordinates 1 p.1      -- ord_stacked[1, 0::3] = ordinates[1]
    | 1, 1 => -ordinates 0 p.1     -- ord_stacked[1, 1::3] = -ordinates[0]
    | 2, 0 => 1                    -- ord_stacked[2, 0::3] = 1.0
    | 3, 1 => 1                    -- ord_stacked[3, 1::3] = 1.0
    | 4, 2 => ordinates 2 p.1      -- ord_stacked[4, 2::3] = ordinates[2]
    | 5, 2 => 1                    -- ord_stacked[5, 2::3] = 1.0
    | _, _ => 0

/-- `ZRotationHscale.calculate` (Transform.py lines 238-282). -/
def calculate (sqrtf : ℚ → ℚ) {N : ℕ} (lstsq : LstsqOracle N 6)
    (ordinates absolutes : Fin 3 → Fin N → ℚ) (weights : Option (Fin N → ℚ)) :
    Mat4 :=
  let abs_stacked := LeastSq.get_stacked_absolutes absolutes
  let ord_w := LeastSq.get_weighted_values_mat sqrtf (ord_stacked ordinates) weights
  let abs_w := LeastSq.get_weighted_values sqrtf abs_stacked weights
  let res := lstsq ord_wᵀ abs_w
  let M_r := res.1
  if res.2 < 3 then nanMatrix
  else toNum !![M_r 0, M_r 1, 0, M_r 2;
                -M_r 1, M_r 0, 0, M_r 3;
                0, 0, M_r 4, M_r 5;
                0, 0, 0, 1]

end ZRotationHscale

namespace ZRotationHscaleZbaseline

/-- The 3-row independent-variable matrix of
`ZRotationHscaleZbaseline.calculate` (Transform.py lines 303-308). -/
def ord_stacked {N : ℕ} (ordinates : Fin 3 → Fin N → ℚ) :
    Matrix (Fin 3) (Fin N × Fin 3) ℚ :=
  Matrix.of fun i p =>
    match (i : ℕ), (p.2 : ℕ) with
    | 0, 0 => ordinates 0 p.1      -- ord_stacked[0, 0::3] = ordinates[0]
    | 0, 1 => ordinates 1 p.1      -- ord_stacked[0, 1::3] = ordinates[1]
    | 1, 0 => ordinates 1 p.1      -- ord_stacked[1, 0::3] = ordinates[1]
    | 1, 1 => -ordinates 0 p.1     -- ord_stacked[1, 1::3] = -ordinates[0]
    | 2, 2 => 1                    -- ord_stacked[2, 2::3] = 1.0
    | _, _ => 0

/-- The dependent-variable vector of `ZRotationHscaleZbaseline.calculate`
(Transform.py lines 311-312): the stacked absolutes with the `[2::3]` slots
overwritten by `absolutes[2] - ordinates[2]`. -/
def abs_stacked {N : ℕ} (absolutes ordinates : Fin 3 → Fin N → ℚ) :
    (Fin N × Fin 3) → ℚ :=
  fun p =>
    match (p.2 : ℕ) with
    | 2 => absolutes 2 p.1 - ordinates 2 p.1
    | _ => LeastSq.get_stacked_absolutes absolutes p

/-- `ZRotationHscaleZbaseline.calculate` (Transform.py lines 285-329). -/
def calculate (sqrtf : ℚ → ℚ) {N : ℕ} (lstsq : LstsqOracle N 3)
    (ordinates absolutes : Fin 3 → Fin N → ℚ) (weights : Option (Fin N → ℚ)) :
    Mat4 :=
  let abs_w := LeastSq.get_weighted_values sqrtf (abs_stacked absolutes ordinates) weights
  let ord_w := LeastSq.get_weighted_values_mat sqrtf (ord_stacked ordinates) weights
  let res := lstsq ord_wᵀ abs_w
  let M_r := res.1
  if res.2 < 3 then nanMatrix
  else toNum !![M_r 0, M_r 1, 0, 0;
                -M_r 1, M_r 0, 0, 0;
                0, 0, 1, M_r 2;
                0, 0, 0, 1]

end ZRotationHscaleZbaseline

namespace Rescale3D

/-- The 3-row independent-variable matrix of `Rescale3D.calculate`
(Transform.py lines 399-402). -/
def ord_stacked {N : ℕ} (ordinates : Fin 3 → Fin N → ℚ) :
    Matrix (Fin 3) (Fin N × Fin 3) ℚ :=
  Matrix.of fun i p =>
    match (i : ℕ), (p.2 : ℕ) with
    | 0, 0 => ordinates 0 p.1      -- ord_stacked[0, 0::3] = ordinates[0]
    | 1, 1 => ordinates 1 p.1      -- ord_stacked[1, 1::3] = ordinates[1]
    | 2, 2 => ordinates 2 p.1      -- ord_stacked[2, 2::3] = ordinates[2]
    | _, _ => 0

/-- `Rescale3D.calculate` (Transform.py lines 381-419). -/
def calculate (sqrtf : ℚ → ℚ) {N : ℕ} (lstsq : LstsqOracle N 3)
    (ordinates absolutes : Fin 3 → Fin N → ℚ) (weights : Option (Fin N → ℚ)) :
    Mat4 :=
  let abs_w := LeastSq.get_weighted_values sqrtf
    (LeastSq.get_stacked_absolutes absolutes) weights
  let ord_w := LeastSq.get_weighted_values_mat sqrtf (ord_stacked ordinates) weights
  let res := lstsq ord_wᵀ abs_w
  let M_r := res.1
  if res.2 < 3 then nanMatrix
  else toNum !![M_r 0, 0, 0, 0;
                0, M_r 1, 0, 0;
                0, 0, M_r 2, 0;
                0, 0, 0, 1]

end Rescale3D

namespace TranslateOrigins

/-- The 3-row independent-variable matrix of `TranslateOrigins.calculate`
(Transform.py lines 447-451): indicator rows of the three channel slots. -/
def ord_stacked (N : ℕ) : Matrix (Fin 3) (Fin N × Fin 3) ℚ :=
  Matrix.of fun i p =>
    match (i : ℕ), (p.2 : ℕ) with
    | 0, 0 => 1                    -- ord_stacked[0, 0::3] = 1.0
    | 1, 1 => 1                    -- ord_stacked[1, 1::3] = 1.0
    | 2, 2 => 1                    -- ord_stacked[2, 2::3] = 1.0
    | _, _ => 0

/-- The dependent-variable vector of `TranslateOrigins.calculate`
(Transform.py lines 446, 454-456): the stacked absolutes with every slot
overwritten by the per-channel difference `absolutes[c] - ordinates[c]`. -/
def abs_stacked {N : ℕ} (absolutes ordinates : Fin 3 → Fin N → ℚ) :
    (Fin N × Fin 3) → ℚ :=
  fun p =>
    match (p.2 : ℕ) with
    | 0 => absolutes 0 p.1 - ordinates 0 p.1
    | 1 => absolutes 1 p.1 - ordinates 1 p.1
    | _ => absolutes 2 p.1 - ordinates 2 p.1

/-- `TranslateOrigins.get_weighted_values` (Transform.py lines 425-437)
applied to the stacked dependent vector: with weights, each slot `(k, c)` is
multiplied by `sqrt (w k)`; `None` weights multiply by the scalar `1`. -/
def get_weighted_values (sqrtf : ℚ → ℚ) {N : ℕ} (values : (Fin N × Fin 3) → ℚ)
    (weights : Option (Fin N → ℚ)) : (Fin N × Fin 3) → ℚ :=
  match weights with
  | none => fun p => values p * 1
  | some w => fun p => values p * sqrtf (w p.1)

/-- `TranslateOrigins.get_weighted_values` applied to the 2-D independent
matrix (numpy broadcasting scales column `(k, c)` by `sqrt (w k)`). -/
def get_weighted_values_mat (sqrtf : ℚ → ℚ) {m N : ℕ}
    (values : Matrix (Fin m) (Fin N × Fin 3) ℚ) (weights : Option (Fin N → ℚ)) :
    Matrix (Fin m) (Fin N × Fin 3) ℚ :=
  match weights with
  | none => Matrix.of fun i p => values i p * 1
  | some w => Matrix.of fun i p => values i p * sqrtf (w p.1)

/-- `TranslateOrigins.calculate` (Transform.py lines 439-474). -/
def calculate (sqrtf : ℚ → ℚ) {N : ℕ} (lstsq : LstsqOracle N 3)
    (ordinates absolutes : Fin 3 → Fin N → ℚ) (weights : Option (Fin N → ℚ)) :
    Mat4 :=
  let ord_w := get_weighted_values_mat sqrtf (ord_stacked N) weights
  let abs_w := get_weighted_values sqrtf (abs_stacked absolutes ordinates) weights
  let res := lstsq ord_wᵀ abs_w
  let M_r := res.1
  if res.2 < 3 then nanMatrix
  else toNum !![1, 0, 0, M_r 0;
                0, 1, 0, M_r 1;
                0, 0, 1, M_r 2;
                0, 0, 0, 1]

end TranslateOrigins

namespace ShearYZ

/-- The 3-row independent-variable matrix of `ShearYZ.calculate`
(Transform.py lines 492-498). -/
def ord_stacked {N : ℕ} (ordinates : Fin 3 → Fin N → ℚ) :
    Matrix (Fin 3) (Fin N × Fin 3) ℚ :=
  Matrix.of fun i p =>
    match (i : ℕ), (p.2 : ℕ) with
    | 0, 0 => 1                    -- ord_stacked[0, 0::3] = 1.0
    | 1, 0 => ordinates 0 p.1      -- ord_stacked[1, 0::3] = ordinates[0]
    | 1, 1 => 1                    -- ord_stacked[1, 1::3] = 1.0
    | 2, 0 => ordinates 0 p.1      -- ord_stacked[2, 0::3] = ordinates[0]
    | 2, 1 => ordinates 1 p.1      -- ord_stacked[2, 1::3] = ordinates[1]
    | 2, 2 => 1                    -- ord_stacked[2, 2::3] = 1.0
    | _, _ => 0

/-- `ShearYZ.calculate` (Transform.py lines 477-514). -/
def calculate (sqrtf : ℚ → ℚ) {N : ℕ} (lstsq : LstsqOracle N 3)
    (ordinates absolutes : Fin 3 → Fin N → ℚ) (weights : Option (Fin N → ℚ)) :
    Mat4 :=
  let ord_w := LeastSq.get_weighted_values_mat sqrtf (ord_stacked ordinates) weights
  let abs_w := LeastSq.get_weighted_values sqrtf
    (LeastSq.get_stacked_absolutes absolutes) weights
  let res := lstsq ord_wᵀ abs_w
  let M_r := res.1
  if res.2 < 3 then nanMatrix
  else toNum !![1, 0, 0, 0;
                M_r 0, 1, 0, 0;
                M_r 1, M_r 2, 1, 0;
                0, 0, 0, 1]

end ShearYZ

namespace SVD

/-- `SVD.get_weighted_values` (Transform.py lines 123-135): per-channel
weighted average `np.average(values[i], weights=w)` with `None` weights
replaced by all ones. -/
def get_weighted_values {N : ℕ} (values : Fin 3 → Fin N → ℚ)
    (weights : Option (Fin N → ℚ)) : Fin 3 → ℚ :=
  let w : Fin N → ℚ :=
    match weights with
    | none => fun _ => 1
    | some w => w
  fun c => (∑ k, w k * values c k) / (∑ k, w k)

/-- `SVD.get_stacked_values` (Transform.py lines 108-121):
`np.vstack([[values[i] - weighted_values[i]] for i in range(ndims)])`, the
first `d` channels centred on their weighted averages, one row per channel
(`d` is the source's `ndims`, which is always 2 or 3). -/
def get_stacked_values {N : ℕ} (d : ℕ) (hd : d ≤ 3)
    (values : Fin 3 → Fin N → ℚ) (weighted_values : Fin 3 → ℚ) :
    Matrix (Fin d) (Fin N) ℚ :=
  Matrix.of fun i k =>
    values (Fin.castLE hd i) k - weighted_values (Fin.castLE hd i)

end SVD

/-- The result of `np.linalg.svd(H)` for a square `d x d` input: the tuple
`(U, S, Vh)` of left singular vectors, singular values, and transposed right
singular vectors. -/
abbrev SvdOracle (d : ℕ) : Type :=
  Matrix (Fin d) (Fin d) ℚ →
    Matrix (Fin d) (Fin d) ℚ × (Fin d → ℚ) × Matrix (Fin d) (Fin d) ℚ

/-- `if weights is None: weights = np.ones_like(ordinates[0])`
(Transform.py lines 528-529 and 595-596). -/
def defaultWeights {N : ℕ} (weights : Option (Fin N → ℚ)) : Fin N → ℚ :=
  match weights with
  | none => fun _ => 1
  | some w => w

namespace RotationTranslation3D

/-- The weighted "covariance" matrix `H` of `RotationTranslation3D.calculate`
(Transform.py lines 344-355): the centred ordinate block times the diagonal
weight matrix times the transposed centred absolute block, in 3 dimensions. -/
def covMatrix {N : ℕ} (ordinates absolutes : Fin 3 → Fin N → ℚ)
    (w : Fin N → ℚ) : Matrix (Fin 3) (Fin 3) ℚ :=
  SVD.get_stacked_values 3 (by decide) ordinates
      (SVD.get_weighted_values ordinates (some w)) *
    (Matrix.diagonal w *
      (SVD.get_stacked_values 3 (by decide) absolutes
        (SVD.get_weighted_values absolutes (some w)))ᵀ)

/-- `RotationTranslation3D.calculate` (Transform.py lines 332-378).

The outer `Option` models the Python exception channel: with
`weights = None` the source reaches `np.diag(weights)` on line 350, and
`np.diag(None)` raises `ValueError` ("Input must be 1- or 2-d"), modelled
as `none`.  (`SVD.get_weighted_values` itself handles `None` fine, so the
weighted centroids are computed before the failure point, as in the
source.)  `np.linalg.det` on line 364 is modelled by `det3`. -/
def calculate {N : ℕ} (svd : SvdOracle 3)
    (ordinates absolutes : Fin 3 → Fin N → ℚ) (weights : Option (Fin N → ℚ)) :
    Option Mat4 :=
  let weighted_ordinates := SVD.get_weighted_values ordinates weights
  let weighted_absolutes := SVD.get_weighted_values absolutes weights
  match weights with
  | none => none  -- np.diag(None) raises ValueError
  | some w =>
    let usv := svd (covMatrix ordinates absolutes w)
    let U := usv.1
    let S := usv.2.1
    let Vh := usv.2.2
    if (∑ i, S i) < 3 then some nanMatrix
    else
      let R := Vhᵀ * (Matrix.diagonal ![1, 1, det3 (Vhᵀ * Uᵀ)] * Uᵀ)
      let T : Fin 3 → ℚ := fun i =>
        weighted_absolutes i - R.mulVec (fun j => weighted_ordinates j) i
      some (toNum !![R 0 0, R 0 1, R 0 2, T 0;
                     R 1 0, R 1 1, R 1 2, T 1;
                     R 2 0, R 2 1, R 2 2, T 2;
                     0, 0, 0, 1])

end RotationTranslation3D

namespace RotationTranslationXY

/-- The weighted "covariance" matrix `H` of `RotationTranslationXY.calculate`
(Transform.py lines 533-544), restricted to the two horizontal dimensions. -/
def covMatrix {N : ℕ} (ordinates absolutes : Fin 3 → Fin N → ℚ)
    (w : Fin N → ℚ) : Matrix (Fin 2) (Fin 2) ℚ :=
  SVD.get_stacked_values 2 (by decide) ordinates
      (SVD.get_weighted_values ordinates (some w)) *
    (Matrix.diagonal w *
      (SVD.get_stacked_values 2 (by decide) absolutes
        (SVD.get_weighted_values absolutes (some w)))ᵀ)

/-- `RotationTranslationXY.calculate` (Transform.py lines 517-571).
`None` weights are replaced by `np.ones_like(ordinates[0])` up front
(lines 528-529); `np.linalg.det` on line 554 is modelled by `det2`. -/
def calculate {N : ℕ} (svd : SvdOracle 2)
    (ordinates absolutes : Fin 3 → Fin N → ℚ) (weights : Option (Fin N → ℚ)) :
    Mat4 :=
  let w : Fin N → ℚ := defaultWeights weights
  let weighted_ordinates := SVD.get_weighted_values ordinates (some w)
  let weighted_absolutes := SVD.get_weighted_values absolutes (some w)
  let usv := svd (covMatrix ordinates absolutes w)
  let U := usv.1
  let S := usv.2.1
  let Vh := usv.2.2
  if (∑ i, S i) < 2 then nanMatrix
  else
    let R := Vhᵀ * (Matrix.diagonal ![1, det2 (Vhᵀ * Uᵀ)] * Uᵀ)
    let T : Fin 2 → ℚ := fun i =>
      weighted_absolutes i.castSucc -
        R.mulVec (fun j => weighted_ordinates j.castSucc) i
    toNum !![R 0 0, R 0 1, 0, T 0;
             R 1 0, R 1 1, 0, T 1;
             0, 0, 1, weighted_absolutes 2 - weighted_ordinates 2;
             0, 0, 0, 1]

end RotationTranslationXY

/-- The result of `np.linalg.qr(A)` for a 2x2 input: the pair `(Q, R)`. -/
abbrev QrOracle : Type :=
  Matrix (Fin 2) (Fin 2) ℚ → Matrix (Fin 2) (Fin 2) ℚ × Matrix (Fin 2) (Fin 2) ℚ

namespace QRFactorization

/-- `QRFactorization.get_weighted_values_lstsq` (Transform.py lines 577-586):
least-squares weighting of the two centred rows, scaling column `k` by
`sqrt (w k)` (`None` weights leave the values untouched). -/
def get_weighted_values_lstsq (sqrtf : ℚ → ℚ) {N : ℕ}
    (values : Matrix (Fin 2) (Fin N) ℚ) (weights : Option (Fin N → ℚ)) :
    Matrix (Fin 2) (Fin N) ℚ :=
  match weights with
  | none => values
  | some w => Matrix.of fun i k => values i k * sqrtf (w k)

/-- The weighted centred design block of `QRFactorization.calculate`
(Transform.py lines 603-617), for either the ordinates or the absolutes:
the two centred channel rows with the least-squares square-root weighting
applied. -/
def design (sqrtf : ℚ → ℚ) {N : ℕ} (values : Fin 3 → Fin N → ℚ)
    (w : Fin N → ℚ) : Matrix (Fin 2) (Fin N) ℚ :=
  get_weighted_values_lstsq sqrtf
    (SVD.get_stacked_values 2 (by decide) values (SVD.get_weighted_values values (some w)))
    (some w)

/-- `QRFactorization.calculate` (Transform.py lines 588-657).

`lstsq2` models `spl.lstsq` with a two-column right-hand side: it returns
the 2x2 coefficient matrix and the numerical rank.  `qr` models
`np.linalg.qr`.  `np.linalg.inv(S)` for the diagonal 2x2 matrix
`S = np.diag(np.diag(R))` is modelled by the diagonal of entrywise
`ℚ`-inverses (numpy would raise `LinAlgError` for a singular `S`; the
rational inverse maps `0` to `0` there — the claims never exercise that
case). -/
def calculate (sqrtf : ℚ → ℚ) {N : ℕ}
    (lstsq2 : Matrix (Fin N) (Fin 2) ℚ → Matrix (Fin N) (Fin 2) ℚ →
      Matrix (Fin 2) (Fin 2) ℚ × ℕ)
    (qr : QrOracle)
    (ordinates absolutes : Fin 3 → Fin N → ℚ) (weights : Option (Fin N → ℚ)) :
    Mat4 :=
  -- if weights is None: weights = np.ones_like(ordinates[0])
  let w : Fin N → ℚ := defaultWeights weights
  let weighted_absolutes := SVD.get_weighted_values absolutes (some w)
  let weighted_ordinates := SVD.get_weighted_values ordinates (some w)
  let abs_w := design sqrtf absolutes w
  let ord_w := design sqrtf ordinates w
  let lres := lstsq2 ord_wᵀ abs_wᵀ
  let M_r := lres.1
  if lres.2 < 2 then nanMatrix
  else
    let qrres := qr M_rᵀ
    let Q := qrres.1
    let R := qrres.2
    -- neg = np.diag(Q) < 0 ; Q[:, neg] *= -1 ; R[neg, :] *= -1
    -- (the mask is read off the diagonal of the original Q)
    let Qfix := Matrix.of fun i j => if Q j j < 0 then -Q i j else Q i j
    let Rfix := Matrix.of fun i j => if Q i i < 0 then -R i j else R i j
    -- S = np.diag(np.diag(R)); H = inv(S) @ R; QH = Q @ H
    let Sinv := Matrix.diagonal fun i => (Rfix i i)⁻¹
    let Hsh := Sinv * Rfix
    let QH := Qfix * Hsh
    let T : Fin 2 → ℚ := fun i =>
      weighted_absolutes i.castSucc -
        QH.mulVec (fun j => weighted_ordinates j.castSucc) i
    toNum !![QH 0 0, QH 0 1, 0, T 0;
             QH 1 0, QH 1 1, 0, T 1;
             0, 0, 1, weighted_absolutes 2 - weighted_ordinates 2;
             0, 0, 0, 1]

end QRFactorization

/-! ## The refactored helper pipeline in `geomagio/adjusted/transform/`

`transform/TranslateOrigins.py` and `transform/ZRotationHScaleZBaseline.py`
are present in the sources; both inherit from `transform/LeastSq.py`, which
is not, so the inherited pieces are modelled from the spec and marked as
such.  The refactored classes are embedded under `...V2` names. -/

namespace LeastSqV2

/-- Modelled from the spec: `transform/LeastSq.py` (the base class of the
refactored variants) is missing from the sources; its
`get_stacked_absolutes` is the shared helper the spec describes as placing
"X, Y and Z absolutes end to end and transposed" — the same interleaved
stacking as `LeastSq.get_stacked_absolutes` in Transform.py. -/
def get_stacked_absolutes {N : ℕ} (absolutes : Fin 3 → Fin N → ℚ) :
    (Fin N × Fin 3) → ℚ :=
  fun p => absolutes p.2 p.1

/-- Modelled from the spec: the missing base class's `get_weighted_values`,
per spec section 4.3 — "weights are applied by multiplying both sides by the
square root of the per-sample weight (replicated across the 3 channels)",
with `None` meaning uniform unit weight (1-D stacked vector form). -/
def get_weighted_values (sqrtf : ℚ → ℚ) {N : ℕ} (values : (Fin N × Fin 3) → ℚ)
    (weights : Option (Fin N → ℚ)) : (Fin N × Fin 3) → ℚ :=
  match weights with
  | none => values
  | some w => fun p => values p * sqrtf (w p.1)

/-- Modelled from the spec: 2-D form of the previous definition. -/
def get_weighted_values_mat (sqrtf : ℚ → ℚ) {m N : ℕ}
    (values : Matrix (Fin m) (Fin N × Fin 3) ℚ) (weights : Option (Fin N → ℚ)) :
    Matrix (Fin m) (Fin N × Fin 3) ℚ :=
  match weights with
  | none => values
  | some w => Matrix.of fun i p => values i p * sqrtf (w p.1)

end LeastSqV2

namespace TranslateOriginsV2

/-- `TranslateOrigins.get_stacked_ordinates`
(transform/TranslateOrigins.py lines 36-41). -/
def get_stacked_ordinates (N : ℕ) : Matrix (Fin 3) (Fin N × Fin 3) ℚ :=
  Matrix.of fun i p =>
    match (i : ℕ), (p.2 : ℕ) with
    | 0, 0 => 1                    -- ord_stacked[0, 0::3] = 1.0
    | 1, 1 => 1                    -- ord_stacked[1, 1::3] = 1.0
    | 2, 2 => 1                    -- ord_stacked[2, 2::3] = 1.0
    | _, _ => 0

/-- `TranslateOrigins.get_stacked_values`
(transform/TranslateOrigins.py lines 11-20): the stacked absolutes with
every slot overwritten by the per-channel difference, paired with the
stacked ordinate design matrix.  The `weights` parameter is accepted and
unused, as in the source. -/
def get_stacked_values {N : ℕ} (absolutes ordinates : Fin 3 → Fin N → ℚ)
    (_weights : Option (Fin N → ℚ)) :
    ((Fin N × Fin 3) → ℚ) × Matrix (Fin 3) (Fin N × Fin 3) ℚ :=
  let abs_stacked : (Fin N × Fin 3) → ℚ := fun p =>
    match (p.2 : ℕ) with
    | 0 => absolutes 0 p.1 - ordinates 0 p.1   -- abs_stacked[0::3]
    | 1 => absolutes 1 p.1 - ordinates 1 p.1   -- abs_stacked[1::3]
    | _ => absolutes 2 p.1 - ordinates 2 p.1   -- abs_stacked[2::3]
  (abs_stacked, get_stacked_ordinates N)

/-- `TranslateOrigins.get_weighted_values`
(transform/TranslateOrigins.py lines 22-34), 1-D stacked vector form. -/
def get_weighted_values (sqrtf : ℚ → ℚ) {N : ℕ} (values : (Fin N × Fin 3) → ℚ)
    (weights : Option (Fin N → ℚ)) : (Fin N × Fin 3) → ℚ :=
  match weights with
  | none => fun p => values p * 1
  | some w => fun p => values p * sqrtf (w p.1)

/-- `TranslateOrigins.get_weighted_values`, 2-D form (broadcasting). -/
def get_weighted_values_mat (sqrtf : ℚ → ℚ) {m N : ℕ}
    (values : Matrix (Fin m) (Fin N × Fin 3) ℚ) (weights : Option (Fin N → ℚ)) :
    Matrix (Fin m) (Fin N × Fin 3) ℚ :=
  match weights with
  | none => Matrix.of fun i p => values i p * 1
  | some w => Matrix.of fun i p => values i p * sqrtf (w p.1)

/-- `TranslateOrigins.get_matrix` (transform/TranslateOrigins.py
lines 43-49); the trailing keyword parameters are accepted and unused. -/
def get_matrix (matrix : Fin 3 → ℚ) : Mat4 :=
  toNum !![1, 0, 0, matrix 0;
           0, 1, 0, matrix 1;
           0, 0, 1, matrix 2;
           0, 0, 0, 1]

/-- Modelled from the spec: the driving `calculate` of the refactored
pipeline lives in the missing `transform/LeastSq.py`; per spec section 4.3
it stacks the values, applies square-root weighting to both sides, runs the
weighted least-squares solve, soft-fails to the all-NaN matrix when the
numerical rank is below 3, and otherwise formats the coefficient vector. -/
def calculate (sqrtf : ℚ → ℚ) {N : ℕ} (lstsq : LstsqOracle N 3)
    (ordinates absolutes : Fin 3 → Fin N → ℚ) (weights : Option (Fin N → ℚ)) :
    Mat4 :=
  let stacked := get_stacked_values absolutes ordinates weights
  let abs_w := get_weighted_values sqrtf stacked.1 weights
  let ord_w := get_weighted_values_mat sqrtf stacked.2 weights
  let res := lstsq ord_wᵀ abs_w
  if res.2 < 3 then nanMatrix else get_matrix res.1

end TranslateOriginsV2

namespace ZRotationHscaleZbaselineV2

/-- `ZRotationHscaleZbaseline.get_stacked_ordinates`
(transform/ZRotationHScaleZBaseline.py lines 21-35). -/
def get_stacked_ordinates {N : ℕ} (ordinates : Fin 3 → Fin N → ℚ) :
    Matrix (Fin 3) (Fin N × Fin 3) ℚ :=
  Matrix.of fun i p =>
    match (i : ℕ), (p.2 : ℕ) with
    | 0, 0 => ordinates 0 p.1      -- ord_stacked[0, 0::3] = ordinates[0]
    | 0, 1 => ordinates 1 p.1      -- ord_stacked[0, 1::3] = ordinates[1]
    | 1, 0 => ordinates 1 p.1      -- ord_stacked[1, 0::3] = ordinates[1]
    | 1, 1 => -ordinates 0 p.1     -- ord_stacked[1, 1::3] = -ordinates[0]
    | 2, 2 => 1                    -- ord_stacked[2, 2::3] = 1.0
    | _, _ => 0

/-- `ZRotationHscaleZbaseline.get_stacked_values`
(transform/ZRotationHScaleZBaseline.py lines 12-19): the stacked absolutes
(via the shared base helper) with the `[2::3]` slots overwritten by
`absolutes[2] - ordinates[2]`, paired with the stacked ordinates. -/
def get_stacked_values {N : ℕ} (absolutes ordinates : Fin 3 → Fin N → ℚ) :
    ((Fin N × Fin 3) → ℚ) × Matrix (Fin 3) (Fin N × Fin 3) ℚ :=
  let abs_stacked : (Fin N × Fin 3) → ℚ := fun p =>
    match (p.2 : ℕ) with
    | 2 => absolutes 2 p.1 - ordinates 2 p.1
    | _ => LeastSqV2.get_stacked_absolutes absolutes p
  (abs_stacked, get_stacked_ordinates ordinates)

/-- `ZRotationHscaleZbaseline.format_matrix`
(transform/ZRotationHScaleZBaseline.py lines 37-43). -/
def format_matrix (matrix : Fin 3 → ℚ) : Mat4 :=
  toNum !![matrix 0, matrix 1, 0, 0;
           -matrix 1, matrix 0, 0, 0;
           0, 0, 1, matrix 2;
           0, 0, 0, 1]

/-- Modelled from the spec: the driving `calculate` of the refactored
pipeline (missing `transform/LeastSq.py` base class), as for
`TranslateOriginsV2.calculate` but with this variant's stacking, the shared
base-class square-root weighting, and `format_matrix`. -/
def calculate (sqrtf : ℚ → ℚ) {N : ℕ} (lstsq : LstsqOracle N 3)
    (ordinates absolutes : Fin 3 → Fin N → ℚ) (weights : Option (Fin N → ℚ)) :
    Mat4 :=
  let stacked := get_stacked_values absolutes ordinates
  let abs_w := LeastSqV2.get_weighted_values sqrtf stacked.1 weights
  let ord_w := LeastSqV2.get_weighted_values_mat sqrtf stacked.2 weights
  let res := lstsq ord_wᵀ abs_w
  if res.2 < 3 then nanMatrix else format_matrix res.1

end ZRotationHscaleZbaselineV2

/-! ## Shared predicates and concrete witness data -/

/-- Residual sum of squares of the least-squares system `A x ≈ b`. -/
def rss {ι : Type} [Fintype ι] {m : ℕ} (A : Matrix ι (Fin m) ℚ) (b : ι → ℚ)
    (x : Fin m → ℚ) : ℚ :=
  ∑ p, (A.mulVec x p - b p) ^ 2

/-- Squared euclidean norm of a coefficient vector. -/
def norm2 {m : ℕ} (x : Fin m → ℚ) : ℚ := ∑ i, (x i) ^ 2

/-- The contract of `scipy.linalg.lstsq` (LAPACK `gelsd`): `x` minimises the
residual L2 norm and, among minimisers, has least euclidean norm. -/
def IsMinNormLstsq {ι : Type} [Fintype ι] {m : ℕ} (A : Matrix ι (Fin m) ℚ)
    (b : ι → ℚ) (x : Fin m → ℚ) : Prop :=
  (∀ y, rss A b x ≤ rss A b y) ∧
    (∀ y, rss A b y = rss A b x → norm2 x ≤ norm2 y)

/-- A result matrix is a good affine output: every entry is a finite number
and the bottom row is exactly `[0, 0, 0, 1]`. -/
def goodAffine (A : Mat4) : Prop :=
  (∀ i j, (A i j).isSome = true) ∧
    A 3 0 = some 0 ∧ A 3 1 = some 0 ∧ A 3 2 = some 0 ∧ A 3 3 = some 1

/-- The design-matrix layout that claim C3 ascribes to
`ZRotationHscaleZbaseline`: row 0 holds `ord_x` at X slots and `ord_y` at
Y slots, row 1 holds `ord_y` at X slots and `-ord_x` at Y slots, row 2
holds `1.0` at Z slots, and every other position is zero. -/
def claim3Layout {N : ℕ} (o : Fin 3 → Fin N → ℚ) :
    Matrix (Fin 3) (Fin N × Fin 3) ℚ :=
  Matrix.of fun i p =>
    if (i : ℕ) = 0 then
      if (p.2 : ℕ) = 0 then o 0 p.1 else if (p.2 : ℕ) = 1 then o 1 p.1 else 0
    else if (i : ℕ) = 1 then
      if (p.2 : ℕ) = 0 then o 1 p.1 else if (p.2 : ℕ) = 1 then -o 0 p.1 else 0
    else
      if (p.2 : ℕ) = 2 then 1 else 0

/-- The dependent vector that claim C3 ascribes to
`ZRotationHscaleZbaseline`: Z entries replaced by
`absolutes_z - ordinates_z`, X and Y entries the plain stacked absolutes. -/
def claim3Rhs {N : ℕ} (a o : Fin 3 → Fin N → ℚ) : (Fin N × Fin 3) → ℚ :=
  fun p => if (p.2 : ℕ) = 2 then a 2 p.1 - o 2 p.1 else a p.2 p.1

/-- Witness samples (N = 1) for the TranslateOrigins identity claim. -/
def wOrdA : Fin 3 → Fin 1 → ℚ := fun c _ => ![5, 7, 9] c

/-- Witness samples (N = 4) for the NoConstraints identity claim: the origin
and the three coordinate unit vectors. -/
def wOrdB : Fin 3 → Fin 4 → ℚ := ![![0, 1, 0, 0], ![0, 0, 1, 0], ![0, 0, 0, 1]]

/-- The coefficient vector that encodes the identity affine map in the
12-unknown NoConstraints layout. -/
def eVec : Fin 12 → ℚ := ![1, 0, 0, 0, 0, 1, 0, 0, 0, 0, 1, 0]

/-- Witness samples (N = 4) with mutually orthogonal, zero-mean channels:
their weighted covariance matrix is `diag (2, 2, 0)`. -/
def wOrdC : Fin 3 → Fin 4 → ℚ := ![![1, -1, 0, 0], ![0, 0, 1, -1], ![0, 0, 0, 0]]

/-- Counterexample samples for the QR reflection claim: ordinates. -/
def qrOrd : Fin 3 → Fin 3 → ℚ := ![![1, 0, -1], ![0, 1, -1], ![0, 0, 0]]

/-- Counterexample samples for the QR reflection claim: the absolutes are
the ordinates with the X and Y channels exchanged — a mirror image of the
ordinates. -/
def qrAbs : Fin 3 → Fin 3 → ℚ := ![![0, 1, -1], ![1, 0, -1], ![0, 0, 0]]

/-! ## Helper lemmas -/

theorem rss_nonneg {ι : Type} [Fintype ι] {m : ℕ} (A : Matrix ι (Fin m) ℚ)
    (b : ι → ℚ) (x : Fin m → ℚ) : 0 ≤ rss A b x :=
  Finset.sum_nonneg fun _ _ => sq_nonneg _

theorem norm2_nonneg {m : ℕ} (x : Fin m → ℚ) : 0 ≤ norm2 x :=
  Finset.sum_nonneg fun _ _ => sq_nonneg _

theorem rss_eq_zero_iff {ι : Type} [Fintype ι] {m : ℕ} (A : Matrix ι (Fin m) ℚ)
    (b : ι → ℚ) (x : Fin m → ℚ) : rss A b x = 0 ↔ A.mulVec x = b := by
  rw [rss]
  rw [Finset.sum_eq_zero_iff_of_nonneg fun _ _ => sq_nonneg _]
  constructor
  · intro h
    funext p
    have := h p (Finset.mem_univ p)
    have := pow_eq_zero_iff (n := 2) (by norm_num) |>.mp this
    linarith [this]
  · intro h p _
    rw [h]
    simp

theorem norm2_eq_zero_iff {m : ℕ} (x : Fin m → ℚ) : norm2 x = 0 ↔ x = 0 := by
  rw [norm2]
  rw [Finset.sum_eq_zero_iff_of_nonneg fun _ _ => sq_nonneg _]
  constructor
  · intro h
    funext i
    have := h i (Finset.mem_univ i)
    have := pow_eq_zero_iff (n := 2) (by norm_num) |>.mp this
    simpa using this
  · intro h i _
    rw [h]
    simp

theorem goodAffine_toNum (M : Matrix (Fin 4) (Fin 4) ℚ) (h0 : M 3 0 = 0)
    (h1 : M 3 1 = 0) (h2 : M 3 2 = 0) (h3 : M 3 3 = 1) : goodAffine (toNum M) :=
  ⟨fun _ _ => rfl, congrArg some h0, congrArg some h1, congrArg some h2,
    congrArg some h3⟩

/-! ## Claim theorems -/

/-- C4: for every non-empty time sequence and finite positive memory,
`get_weights` returns the same-length vector whose entry for sample `s` is
`exp((s - t_ref)/memory)` when `s` is at or before the reference and
`exp((t_ref - s)/memory)` when at or after, equals exactly 1 at
`s = t_ref`, and the reference defaults to the maximum input time when not
supplied. -/
theorem claim4_exponential_decay_weights
    (expf : ℚ → ℚ) (hexp : expf 0 = 1) (m : ℚ) (hm : 0 < m)
    (times : List ℚ) (time? : Option ℚ) (tref : ℚ) (hne : times ≠ [])
    (href : time? = some tref ∨ (time? = none ∧ times.max? = some tref)) :
    Transform.get_weights expf (some m) times time? =
      some (times.map fun s =>
        if tref ≤ s then expf ((tref - s) / m) else expf ((s - tref) / m)) ∧
    (times.map fun s =>
      if tref ≤ s then expf ((tref - s) / m) else expf ((s - tref) / m)).length
        = times.length ∧
    (∀ s : ℚ, s ≤ tref →
      (if tref ≤ s then expf ((tref - s) / m) else expf ((s - tref) / m))
        = expf ((s - tref) / m)) ∧
    (∀ s : ℚ, tref ≤ s →
      (if tref ≤ s then expf ((tref - s) / m) else expf ((s - tref) / m))
        = expf ((tref - s) / m)) ∧
    (if tref ≤ tref then expf ((tref - tref) / m) else expf ((tref - tref) / m))
      = 1 := by
  refine ⟨?_, List.length_map _ _, ?_, ?_, ?_⟩
  · rcases href with h | ⟨h1, h2⟩
    · subst h
      rfl
    · subst h1
      simp only [Transform.get_weights, Option.orElse, h2]
  · intro s hs
    by_cases h : tref ≤ s
    · have : s = tref := le_antisymm hs h
      subst this
      simp [h, sub_self]
    · simp [h]
  · intro s hs
    simp [hs]
  · simp [le_refl, sub_self, hexp]

/-- C4 witness: a concrete instantiation at `times = [0]`, default reference
time, unit memory, and an exp oracle satisfying `exp 0 = 1`. -/
theorem claim4_witness :
    Transform.get_weights (fun _ => 1) (some 1) [0] none = some [1] := by
  have h := claim4_exponential_decay_weights (fun _ => 1) rfl 1 one_pos [0]
    none 0 (by decide) (Or.inr ⟨rfl, rfl⟩)
  simpa using h.1

/-- C8 counterexample: with an explicit reference time, `get_weights` on the
empty sequence silently returns the empty vector instead of failing, so the
claim's "regardless of whether an explicit reference time is supplied" is
false on the code. -/
theorem claim8_counterexample :
    Transform.get_weights (fun q => q) (some 1) [] (some 0) = some [] := rfl

/-- C8 amended: on an empty time sequence, `get_weights` fails (the
`float(max(times))` call raises) exactly when no explicit reference time is
supplied; with an explicit reference time it silently returns the empty
weight vector. -/
theorem claim8_amended (expf : ℚ → ℚ) (memory : Option ℚ) (t : ℚ) :
    Transform.get_weights expf memory [] none = none ∧
    Transform.get_weights expf memory [] (some t) = some [] := by
  cases memory <;> exact ⟨rfl, rfl⟩

/-- C9: with infinite memory (`memory = none`, modelling `np.inf`),
`get_weights` returns the all-ones vector of the input's length for every
non-empty time sequence and every choice of reference time (explicit or
defaulted). -/
theorem claim9_infinite_memory_unit_weights
    (expf : ℚ → ℚ) (times : List ℚ) (time? : Option ℚ) (hne : times ≠ []) :
    Transform.get_weights expf none times time? =
      some (List.replicate times.length 1) := by
  have hmap : times.map (fun _ => (1 : ℚ)) = List.replicate times.length 1 := by
    simp [List.map_const]
  cases time? with
  | some t =>
    show some (times.map fun _ => (1 : ℚ)) = _
    rw [hmap]
  | none =>
    obtain ⟨t, ht⟩ : ∃ t, times.max? = some t := by
      cases hmax : times.max? with
      | none => exact absurd (List.max?_eq_none_iff.mp hmax) hne
      | some t => exact ⟨t, rfl⟩
    simp only [Transform.get_weights, Option.orElse, ht, hmap]

/-- C9 witness: concrete non-empty times with both an explicit and a
defaulted reference time. -/
theorem claim9_witness :
    Transform.get_weights (fun q => q) none [5, 7] (some 42) = some [1, 1] ∧
    Transform.get_weights (fun q => q) none [5, 7] none = some [1, 1] :=
  ⟨claim9_infinite_memory_unit_weights (fun q => q) [5, 7] (some 42) (by decide),
   claim9_infinite_memory_unit_weights (fun q => q) [5, 7] none (by decide)⟩

/-- C3: `ZRotationHscaleZbaseline` solves exactly the 3 unknowns
`(a, b, tz)` with the documented coefficient layout: its design matrix and
dependent vector coincide with the layout the claim describes
(`claim3Layout`, `claim3Rhs`), and for every non-degenerate solve
(`rank ≥ 3`) the returned matrix is
`[[a, b, 0, 0], [-b, a, 0, 0], [0, 0, 1, tz], [0, 0, 0, 1]]` — Z scale
fixed at 1 and no X or Y translation. -/
theorem claim3_zrotation_hscale_zbaseline_structure :
    (∀ (N : ℕ) (o : Fin 3 → Fin N → ℚ),
      ZRotationHscaleZbaseline.ord_stacked o = claim3Layout o) ∧
    (∀ (N : ℕ) (a o : Fin 3 → Fin N → ℚ),
      ZRotationHscaleZbaseline.abs_stacked a o = claim3Rhs a o) ∧
    (∀ (sqrtf : ℚ → ℚ) (N : ℕ) (lstsq : LstsqOracle N 3)
      (o a : Fin 3 → Fin N → ℚ) (w : Option (Fin N → ℚ))
      (M_r : Fin 3 → ℚ) (rank : ℕ),
      lstsq (LeastSq.get_weighted_values_mat sqrtf
               (ZRotationHscaleZbaseline.ord_stacked o) w)ᵀ
            (LeastSq.get_weighted_values sqrtf
               (ZRotationHscaleZbaseline.abs_stacked a o) w) = (M_r, rank) →
      3 ≤ rank →
      ZRotationHscaleZbaseline.calculate sqrtf lstsq o a w =
        toNum !![M_r 0, M_r 1, 0, 0;
                 -M_r 1, M_r 0, 0, 0;
                 0, 0, 1, M_r 2;
                 0, 0, 0, 1]) := by
  refine ⟨?_, ?_, ?_⟩
  · intro N o
    funext i p
    obtain ⟨k, c⟩ := p
    fin_cases i <;> fin_cases c <;> rfl
  · intro N a o
    funext p
    obtain ⟨k, c⟩ := p
    fin_cases c <;> rfl
  · intro sqrtf N lstsq o a w M_r rank heq h3
    simp only [ZRotationHscaleZbaseline.calculate, heq]
    rw [if_neg (not_lt.mpr h3)]

/-- C3 witness: a concrete solve with a constant least-squares oracle of
rank 3. -/
theorem claim3_witness :
    ZRotationHscaleZbaseline.calculate id (fun _ _ => (![2, 3, 4], 3))
      wOrdA wOrdA none =
      toNum !![2, 3, 0, 0; -3, 2, 0, 0; 0, 0, 1, 4; 0, 0, 0, 1] := by
  have h := claim3_zrotation_hscale_zbaseline_structure.2.2 id 1
    (fun _ _ => (![2, 3, 4], 3)) wOrdA wOrdA none ![2, 3, 4] 3 rfl (by norm_num)
  rw [h]
  decide

/-- C1: for every strategy variant, numerical degeneracy yields the all-NaN
4x4 sentinel and nothing else: whenever the least-squares numerical rank is
below 3 (below 2 for `QRFactorization`), or an SVD variant's sum of
singular values is below its dimensionality (3 for `RotationTranslation3D`,
2 for `RotationTranslationXY`), `calculate` returns `nanMatrix` — one
conjunct per variant, quantified over all inputs and all solver/SVD oracle
outputs satisfying the degeneracy condition. -/
theorem claim1_degeneracy_yields_nan_matrix :
    (∀ (sqrtf : ℚ → ℚ) (N : ℕ) (lstsq : LstsqOracle N 12)
      (o a : Fin 3 → Fin N → ℚ) (w : Option (Fin N → ℚ))
      (M_r : Fin 12 → ℚ) (rank : ℕ),
      lstsq (LeastSq.get_weighted_values_mat sqrtf (NoConstraints.ord_stacked o) w)ᵀ
            (LeastSq.get_weighted_values sqrtf (LeastSq.get_stacked_absolutes a) w)
          = (M_r, rank) →
      rank < 3 → NoConstraints.calculate sqrtf lstsq o a w = nanMatrix) ∧
    (∀ (sqrtf : ℚ → ℚ) (N : ℕ) (lstsq : LstsqOracle N 8)
      (o a : Fin 3 → Fin N → ℚ) (w : Option (Fin N → ℚ))
      (M_r : Fin 8 → ℚ) (rank : ℕ),
      lstsq (LeastSq.get_weighted_values_mat sqrtf (ZRotationShear.ord_stacked o) w)ᵀ
            (LeastSq.get_weighted_values sqrtf (LeastSq.get_stacked_absolutes a) w)
          = (M_r, rank) →
      rank < 3 → ZRotationShear.calculate sqrtf lstsq o a w = nanMatrix) ∧
    (∀ (sqrtf : ℚ → ℚ) (N : ℕ) (lstsq : LstsqOracle N 6)
      (o a : Fin 3 → Fin N → ℚ) (w : Option (Fin N → ℚ))
      (M_r : Fin 6 → ℚ) (rank : ℕ),
      lstsq (LeastSq.get_weighted_values_mat sqrtf (ZRotationHscale.ord_stacked o) w)ᵀ
            (LeastSq.get_weighted_values sqrtf (LeastSq.get_stacked_absolutes a) w)
          = (M_r, rank) →
      rank < 3 → ZRotationHscale.calculate sqrtf lstsq o a w = nanMatrix) ∧
    (∀ (sqrtf : ℚ → ℚ) (N : ℕ) (lstsq : LstsqOracle N 3)
      (o a : Fin 3 → Fin N → ℚ) (w : Option (Fin N → ℚ))
      (M_r : Fin 3 → ℚ) (rank : ℕ),
      lstsq (LeastSq.get_weighted_values_mat sqrtf
               (ZRotationHscaleZbaseline.ord_stacked o) w)ᵀ
            (LeastSq.get_weighted_values sqrtf
               (ZRotationHscaleZbaseline.abs_stacked a o) w) = (M_r, rank) →
      rank < 3 → ZRotationHscaleZbaseline.calculate sqrtf lstsq o a w = nanMatrix) ∧
    (∀ (sqrtf : ℚ → ℚ) (N : ℕ) (lstsq : LstsqOracle N 3)
      (o a : Fin 3 → Fin N → ℚ) (w : Option (Fin N → ℚ))
      (M_r : Fin 3 → ℚ) (rank : ℕ),
      lstsq (LeastSq.get_weighted_values_mat sqrtf (Rescale3D.ord_stacked o) w)ᵀ
            (LeastSq.get_weighted_values sqrtf (LeastSq.get_stacked_absolutes a) w)
          = (M_r, rank) →
      rank < 3 → Rescale3D.calculate sqrtf lstsq o a w = nanMatrix) ∧
    (∀ (sqrtf : ℚ → ℚ) (N : ℕ) (lstsq : LstsqOracle N 3)
      (o a : Fin 3 → Fin N → ℚ) (w : Option (Fin N → ℚ))
      (M_r : Fin 3 → ℚ) (rank : ℕ),
      lstsq (TranslateOrigins.get_weighted_values_mat sqrtf
               (TranslateOrigins.ord_stacked N) w)ᵀ
            (TranslateOrigins.get_weighted_values sqrtf
               (TranslateOrigins.abs_stacked a o) w) = (M_r, rank) →
      rank < 3 → TranslateOrigins.calculate sqrtf lstsq o a w = nanMatrix) ∧
    (∀ (sqrtf : ℚ → ℚ) (N : ℕ) (lstsq : LstsqOracle N 3)
      (o a : Fin 3 → Fin N → ℚ) (w : Option (Fin N → ℚ))
      (M_r : Fin 3 → ℚ) (rank : ℕ),
      lstsq (LeastSq.get_weighted_values_mat sqrtf (ShearYZ.ord_stacked o) w)ᵀ
            (LeastSq.get_weighted_values sqrtf (LeastSq.get_stacked_absolutes a) w)
          = (M_r, rank) →
      rank < 3 → ShearYZ.calculate sqrtf lstsq o a w = nanMatrix) ∧
    (∀ (svd : SvdOracle 3) (N : ℕ) (o a : Fin 3 → Fin N → ℚ) (w : Fin N → ℚ)
      (U : Matrix (Fin 3) (Fin 3) ℚ) (S : Fin 3 → ℚ) (Vh : Matrix (Fin 3) (Fin 3) ℚ),
      svd (RotationTranslation3D.covMatrix o a w) = (U, S, Vh) →
      (∑ i, S i) < 3 →
      RotationTranslation3D.calculate svd o a (some w) = some nanMatrix) ∧
    (∀ (svd : SvdOracle 2) (N : ℕ) (o a : Fin 3 → Fin N → ℚ)
      (w : Option (Fin N → ℚ))
      (U : Matrix (Fin 2) (Fin 2) ℚ) (S : Fin 2 → ℚ) (Vh : Matrix (Fin 2) (Fin 2) ℚ),
      svd (RotationTranslationXY.covMatrix o a (defaultWeights w)) = (U, S, Vh) →
      (∑ i, S i) < 2 →
      RotationTranslationXY.calculate svd o a w = nanMatrix) ∧
    (∀ (sqrtf : ℚ → ℚ) (N : ℕ)
      (lstsq2 : Matrix (Fin N) (Fin 2) ℚ → Matrix (Fin N) (Fin 2) ℚ →
        Matrix (Fin 2) (Fin 2) ℚ × ℕ)
      (qr : QrOracle) (o a : Fin 3 → Fin N → ℚ) (w : Option (Fin N → ℚ))
      (M_r : Matrix (Fin 2) (Fin 2) ℚ) (rank : ℕ),
      lstsq2 (QRFactorization.design sqrtf o (defaultWeights w))ᵀ
             (QRFactorization.design sqrtf a (defaultWeights w))ᵀ = (M_r, rank) →
      rank < 2 → QRFactorization.calculate sqrtf lstsq2 qr o a w = nanMatrix) := by
  refine ⟨?_, ?_, ?_, ?_, ?_, ?_, ?_, ?_, ?_, ?_⟩
  · intro sqrtf N lstsq o a w M_r rank heq hlt
    simp only [NoConstraints.calculate, heq]
    simp [hlt]
  · intro sqrtf N lstsq o a w M_r rank heq hlt
    simp only [ZRotationShear.calculate, heq]
    simp [hlt]
  · intro sqrtf N lstsq o a w M_r rank heq hlt
    simp only [ZRotationHscale.calculate, heq]
    simp [hlt]
  · intro sqrtf N lstsq o a w M_r rank heq hlt
    simp only [ZRotationHscaleZbaseline.calculate, heq]
    simp [hlt]
  · intro sqrtf N lstsq o a w M_r rank heq hlt
    simp only [Rescale3D.calculate, heq]
    simp [hlt]
  · intro sqrtf N lstsq o a w M_r rank heq hlt
    simp only [TranslateOrigins.calculate, heq]
    simp [hlt]
  · intro sqrtf N lstsq o a w M_r rank heq hlt
    simp only [ShearYZ.calculate, heq]
    simp [hlt]
  · intro svd N o a w U S Vh heq hlt
    simp only [RotationTranslation3D.calculate, heq]
    simp [hlt]
  · intro svd N o a w U S Vh heq hlt
    simp only [RotationTranslationXY.calculate, heq]
    rw [if_pos hlt]
  · intro sqrtf N lstsq2 qr o a w M_r rank heq hlt
    simp only [QRFactorization.calculate, heq]
    simp [hlt]

/-- C1 witness: each of the ten variants evaluated at a concrete degenerate
input (all-zero samples with a rank-0 / zero-singular-value oracle) returns
the all-NaN matrix. -/
theorem claim1_witness :
    NoConstraints.calculate (N := 1) id (fun _ _ => (fun _ => 0, 0))
      (fun _ _ => 0) (fun _ _ => 0) none = nanMatrix ∧
    ZRotationShear.calculate (N := 1) id (fun _ _ => (fun _ => 0, 0))
      (fun _ _ => 0) (fun _ _ => 0) none = nanMatrix ∧
    ZRotationHscale.calculate (N := 1) id (fun _ _ => (fun _ => 0, 0))
      (fun _ _ => 0) (fun _ _ => 0) none = nanMatrix ∧
    ZRotationHscaleZbaseline.calculate (N := 1) id (fun _ _ => (fun _ => 0, 0))
      (fun _ _ => 0) (fun _ _ => 0) none = nanMatrix ∧
    Rescale3D.calculate (N := 1) id (fun _ _ => (fun _ => 0, 0))
      (fun _ _ => 0) (fun _ _ => 0) none = nanMatrix ∧
    TranslateOrigins.calculate (N := 1) id (fun _ _ => (fun _ => 0, 0))
      (fun _ _ => 0) (fun _ _ => 0) none = nanMatrix ∧
    ShearYZ.calculate (N := 1) id (fun _ _ => (fun _ => 0, 0))
      (fun _ _ => 0) (fun _ _ => 0) none = nanMatrix ∧
    RotationTranslation3D.calculate (N := 1) (fun _ => (1, ![0, 0, 0], 1))
      (fun _ _ => 0) (fun _ _ => 0) (some fun _ => 1) = some nanMatrix ∧
    RotationTranslationXY.calculate (N := 1) (fun _ => (1, ![0, 0], 1))
      (fun _ _ => 0) (fun _ _ => 0) none = nanMatrix ∧
    QRFactorization.calculate (N := 1) id (fun _ _ => (!![0, 0; 0, 0], 0))
      (fun _ => (!![0, 0; 0, 0], !![0, 0; 0, 0]))
      (fun _ _ => 0) (fun _ _ => 0) none = nanMatrix := by
  obtain ⟨h1, h2, h3, h4, h5, h6, h7, h8, h9, h10⟩ :=
    claim1_degeneracy_yields_nan_matrix
  exact ⟨h1 id 1 _ _ _ none _ 0 rfl (by norm_num),
    h2 id 1 _ _ _ none _ 0 rfl (by norm_num),
    h3 id 1 _ _ _ none _ 0 rfl (by norm_num),
    h4 id 1 _ _ _ none _ 0 rfl (by norm_num),
    h5 id 1 _ _ _ none _ 0 rfl (by norm_num),
    h6 id 1 _ _ _ none _ 0 rfl (by norm_num),
    h7 id 1 _ _ _ none _ 0 rfl (by norm_num),
    h8 _ 1 _ _ _ 1 ![0, 0, 0] 1 rfl (by norm_num [Fin.sum_univ_three]),
    h9 _ 1 _ _ none 1 ![0, 0] 1 rfl (by norm_num [Fin.sum_univ_two]),
    h10 id 1 _ _ _ _ none _ 0 rfl (by norm_num)⟩

set_option maxHeartbeats 1600000 in
/-- C2 counterexample (code bug): at the mirrored sample set
`qrOrd`/`qrAbs` (absolutes = ordinates with X and Y exchanged), the exact
least-squares solution is `M_r = [[0, 1], [1, 0]]` with rank 2, and LAPACK's
Householder QR of `M_r.T = [[0, 1], [1, 0]]` is
`Q = [[0, -1], [-1, 0]]`, `R = [[-1, 0], [0, -1]]` (`dlarfg` maps the first
column `(0, 1)` to `(-1, 0)` since `sign(0) = +1`).  Both diagonal entries
of `Q` are zero, so the sign-correction loop negates nothing, and
`QRFactorization.calculate` returns a linear block of determinant `-1` — a
reflection — contradicting the claim and the code's own NOTE comment. -/
theorem claim2_qr_reflection_counterexample :
    QRFactorization.calculate (N := 3) id
      (fun _ _ => (!![0, 1; 1, 0], 2))
      (fun _ => (!![0, -1; -1, 0], !![-1, 0; 0, -1]))
      qrOrd qrAbs (some fun _ => 1) =
      toNum !![0, -1, 0, 0; -1, 0, 0, 0; 0, 0, 1, 0; 0, 0, 0, 1] ∧
    (linear3 !![0, -1, 0, 0; -1, 0, 0, 0; 0, 0, 1, 0; 0, 0, 0, 1]).det = -1 := by
  constructor
  · have hwa : SVD.get_weighted_values qrAbs (some fun _ => (1 : ℚ)) =
        fun _ => 0 := by
      funext c
      fin_cases c <;>
        simp [SVD.get_weighted_values, qrAbs, Fin.sum_univ_three,
          Matrix.vecHead, Matrix.vecTail]
    have hwo : SVD.get_weighted_values qrOrd (some fun _ => (1 : ℚ)) =
        fun _ => 0 := by
      funext c
      fin_cases c <;>
        simp [SVD.get_weighted_values, qrOrd, Fin.sum_univ_three,
          Matrix.vecHead, Matrix.vecTail]
    simp only [QRFactorization.calculate, defaultWeights, hwa, hwo,
      Prod.fst, Prod.snd]
    rw [if_neg (by norm_num)]
    refine Matrix.ext fun i j => ?_
    fin_cases i <;> fin_cases j <;>
      norm_num [toNum, Matrix.mul_apply, Matrix.mulVec, Matrix.dotProduct,
        Fin.sum_univ_two, Matrix.diagonal_apply, Matrix.of_apply,
        Matrix.transpose_apply, Matrix.vecHead, Matrix.vecTail]
  · have h0 : (Fin.castSucc 0 : Fin 4) = 0 := rfl
    have h1 : (Fin.castSucc 1 : Fin 4) = 1 := rfl
    have h2 : (Fin.castSucc 2 : Fin 4) = 2 := rfl
    simp [linear3, Matrix.det_fin_three, h0, h1, h2]

/-- C5 (code bug): `weights = None` is not a valid sentinel for
`RotationTranslation3D.calculate` — the call reaches `np.diag(None)` and
raises (first conjunct, the embedded exception `none`), whereas the same
input with an explicit all-ones weight vector succeeds and returns the
identity affine matrix (second conjunct; the SVD oracle value
`(1, (2, 2, 0), 1)` is the exact SVD of the covariance matrix
`diag (2, 2, 0)` of the `wOrdC` samples). -/
theorem claim5_none_weights_crash_rotation_translation_3d :
    RotationTranslation3D.calculate (fun _ => (1, ![2, 2, 0], 1))
      wOrdC wOrdC none = none ∧
    RotationTranslation3D.calculate (fun _ => (1, ![2, 2, 0], 1))
      wOrdC wOrdC (some fun _ => 1) =
      some (toNum !![1, 0, 0, 0; 0, 1, 0, 0; 0, 0, 1, 0; 0, 0, 0, 1]) := by
  constructor
  · rfl
  · have hones : (![1, 1, 1] : Fin 3 → ℚ) = fun _ => 1 := by
      funext i
      fin_cases i <;> rfl
    have f1 : ¬((2 : Fin 3) = 1) := by decide
    have f2 : ¬((1 : Fin 3) = 2) := by decide
    have f3 : ¬((2 : Fin 3) = 0) := by decide
    have f4 : ¬((0 : Fin 3) = 2) := by decide
    norm_num [RotationTranslation3D.calculate, Fin.sum_univ_three,
      Matrix.transpose_one, det3, Matrix.one_apply, Matrix.one_mulVec,
      Matrix.diagonal_one, hones, toNum, Matrix.one_mul, Matrix.mul_one]
    funext i j
    fin_cases i <;> fin_cases j <;>
      simp [f1, f2, f3, f4, hones, Matrix.diagonal_one, Matrix.one_mulVec,
        Matrix.vecHead, Matrix.vecTail]

/-- C6: for every strategy variant, whenever the variant's own
non-degeneracy check passes (numerical rank at least 3, respectively sum of
singular values at least the dimensionality, rank at least 2 for
`QRFactorization`) — the embedded counterpart of a finite, well-conditioned
input with enough independent samples — `calculate` returns a matrix all of
whose entries are finite numbers and whose bottom row is exactly
`[0, 0, 0, 1]`. -/
theorem claim6_nondegenerate_results_are_affine :
    (∀ (sqrtf : ℚ → ℚ) (N : ℕ) (lstsq : LstsqOracle N 12)
      (o a : Fin 3 → Fin N → ℚ) (w : Option (Fin N → ℚ))
      (M_r : Fin 12 → ℚ) (rank : ℕ),
      lstsq (LeastSq.get_weighted_values_mat sqrtf (NoConstraints.ord_stacked o) w)ᵀ
            (LeastSq.get_weighted_values sqrtf (LeastSq.get_stacked_absolutes a) w)
          = (M_r, rank) →
      3 ≤ rank → goodAffine (NoConstraints.calculate sqrtf lstsq o a w)) ∧
    (∀ (sqrtf : ℚ → ℚ) (N : ℕ) (lstsq : LstsqOracle N 8)
      (o a : Fin 3 → Fin N → ℚ) (w : Option (Fin N → ℚ))
      (M_r : Fin 8 → ℚ) (rank : ℕ),
      lstsq (LeastSq.get_weighted_values_mat sqrtf (ZRotationShear.ord_stacked o) w)ᵀ
            (LeastSq.get_weighted_values sqrtf (LeastSq.get_stacked_absolutes a) w)
          = (M_r, rank) →
      3 ≤ rank → goodAffine (ZRotationShear.calculate sqrtf lstsq o a w)) ∧
    (∀ (sqrtf : ℚ → ℚ) (N : ℕ) (lstsq : LstsqOracle N 6)
      (o a : Fin 3 → Fin N → ℚ) (w : Option (Fin N → ℚ))
      (M_r : Fin 6 → ℚ) (rank : ℕ),
      lstsq (LeastSq.get_weighted_values_mat sqrtf (ZRotationHscale.ord_stacked o) w)ᵀ
            (LeastSq.get_weighted_values sqrtf (LeastSq.get_stacked_absolutes a) w)
          = (M_r, rank) →
      3 ≤ rank → goodAffine (ZRotationHscale.calculate sqrtf lstsq o a w)) ∧
    (∀ (sqrtf : ℚ → ℚ) (N : ℕ) (lstsq : LstsqOracle N 3)
      (o a : Fin 3 → Fin N → ℚ) (w : Option (Fin N → ℚ))
      (M_r : Fin 3 → ℚ) (rank : ℕ),
      lstsq (LeastSq.get_weighted_values_mat sqrtf
               (ZRotationHscaleZbaseline.ord_stacked o) w)ᵀ
            (LeastSq.get_weighted_values sqrtf
               (ZRotationHscaleZbaseline.abs_stacked a o) w) = (M_r, rank) →
      3 ≤ rank → goodAffine (ZRotationHscaleZbaseline.calculate sqrtf lstsq o a w)) ∧
    (∀ (sqrtf : ℚ → ℚ) (N : ℕ) (lstsq : LstsqOracle N 3)
      (o a : Fin 3 → Fin N → ℚ) (w : Option (Fin N → ℚ))
      (M_r : Fin 3 → ℚ) (rank : ℕ),
      lstsq (LeastSq.get_weighted_values_mat sqrtf (Rescale3D.ord_stacked o) w)ᵀ
            (LeastSq.get_weighted_values sqrtf (LeastSq.get_stacked_absolutes a) w)
          = (M_r, rank) →
      3 ≤ rank → goodAffine (Rescale3D.calculate sqrtf lstsq o a w)) ∧
    (∀ (sqrtf : ℚ → ℚ) (N : ℕ) (lstsq : LstsqOracle N 3)
      (o a : Fin 3 → Fin N → ℚ) (w : Option (Fin N → ℚ))
      (M_r : Fin 3 → ℚ) (rank : ℕ),
      lstsq (TranslateOrigins.get_weighted_values_mat sqrtf
               (TranslateOrigins.ord_stacked N) w)ᵀ
            (TranslateOrigins.get_weighted_values sqrtf
               (TranslateOrigins.abs_stacked a o) w) = (M_r, rank) →
      3 ≤ rank → goodAffine (TranslateOrigins.calculate sqrtf lstsq o a w)) ∧
    (∀ (sqrtf : ℚ → ℚ) (N : ℕ) (lstsq : LstsqOracle N 3)
      (o a : Fin 3 → Fin N → ℚ) (w : Option (Fin N → ℚ))
      (M_r : Fin 3 → ℚ) (rank : ℕ),
      lstsq (LeastSq.get_weighted_values_mat sqrtf (ShearYZ.ord_stacked o) w)ᵀ
            (LeastSq.get_weighted_values sqrtf (LeastSq.get_stacked_absolutes a) w)
          = (M_r, rank) →
      3 ≤ rank → goodAffine (ShearYZ.calculate sqrtf lstsq o a w)) ∧
    (∀ (svd : SvdOracle 3) (N : ℕ) (o a : Fin 3 → Fin N → ℚ) (w : Fin N → ℚ)
      (U : Matrix (Fin 3) (Fin 3) ℚ) (S : Fin 3 → ℚ) (Vh : Matrix (Fin 3) (Fin 3) ℚ),
      svd (RotationTranslation3D.covMatrix o a w) = (U, S, Vh) →
      3 ≤ (∑ i, S i) →
      ∃ A, RotationTranslation3D.calculate svd o a (some w) = some A ∧
        goodAffine A) ∧
    (∀ (svd : SvdOracle 2) (N : ℕ) (o a : Fin 3 → Fin N → ℚ)
      (w : Option (Fin N → ℚ))
      (U : Matrix (Fin 2) (Fin 2) ℚ) (S : Fin 2 → ℚ) (Vh : Matrix (Fin 2) (Fin 2) ℚ),
      svd (RotationTranslationXY.covMatrix o a (defaultWeights w)) = (U, S, Vh) →
      2 ≤ (∑ i, S i) →
      goodAffine (RotationTranslationXY.calculate svd o a w)) ∧
    (∀ (sqrtf : ℚ → ℚ) (N : ℕ)
      (lstsq2 : Matrix (Fin N) (Fin 2) ℚ → Matrix (Fin N) (Fin 2) ℚ →
        Matrix (Fin 2) (Fin 2) ℚ × ℕ)
      (qr : QrOracle) (o a : Fin 3 → Fin N → ℚ) (w : Option (Fin N → ℚ))
      (M_r : Matrix (Fin 2) (Fin 2) ℚ) (rank : ℕ),
      lstsq2 (QRFactorization.design sqrtf o (defaultWeights w))ᵀ
             (QRFactorization.design sqrtf a (defaultWeights w))ᵀ = (M_r, rank) →
      2 ≤ rank → goodAffine (QRFactorization.calculate sqrtf lstsq2 qr o a w)) := by
  refine ⟨?_, ?_, ?_, ?_, ?_, ?_, ?_, ?_, ?_, ?_⟩
  · intro sqrtf N lstsq o a w M_r rank heq hge
    simp only [NoConstraints.calculate, heq]
    rw [if_neg (not_lt.mpr hge)]
    exact goodAffine_toNum _ rfl rfl rfl rfl
  · intro sqrtf N lstsq o a w M_r rank heq hge
    simp only [ZRotationShear.calculate, heq]
    rw [if_neg (not_lt.mpr hge)]
    exact goodAffine_toNum _ rfl rfl rfl rfl
  · intro sqrtf N lstsq o a w M_r rank heq hge
    simp only [ZRotationHscale.calculate, heq]
    rw [if_neg (not_lt.mpr hge)]
    exact goodAffine_toNum _ rfl rfl rfl rfl
  · intro sqrtf N lstsq o a w M_r rank heq hge
    simp only [ZRotationHscaleZbaseline.calculate, heq]
    rw [if_neg (not_lt.mpr hge)]
    exact goodAffine_toNum _ rfl rfl rfl rfl
  · intro sqrtf N lstsq o a w M_r rank heq hge
    simp only [Rescale3D.calculate, heq]
    rw [if_neg (not_lt.mpr hge)]
    exact goodAffine_toNum _ rfl rfl rfl rfl
  · intro sqrtf N lstsq o a w M_r rank heq hge
    simp only [TranslateOrigins.calculate, heq]
    rw [if_neg (not_lt.mpr hge)]
    exact goodAffine_toNum _ rfl rfl rfl rfl
  · intro sqrtf N lstsq o a w M_r rank heq hge
    simp only [ShearYZ.calculate, heq]
    rw [if_neg (not_lt.mpr hge)]
    exact goodAffine_toNum _ rfl rfl rfl rfl
  · intro svd N o a w U S Vh heq hge
    simp only [RotationTranslation3D.calculate, heq]
    rw [if_neg (not_lt.mpr hge)]
    exact ⟨_, rfl, goodAffine_toNum _ rfl rfl rfl rfl⟩
  · intro svd N o a w U S Vh heq hge
    simp only [RotationTranslationXY.calculate, heq]
    rw [if_neg (not_lt.mpr hge)]
    exact goodAffine_toNum _ rfl rfl rfl rfl
  · intro sqrtf N lstsq2 qr o a w M_r rank heq hge
    simp only [QRFactorization.calculate, heq]
    rw [if_neg (not_lt.mpr hge)]
    exact goodAffine_toNum _ rfl rfl rfl rfl

/-- C6 witness: each variant evaluated at a concrete well-conditioned
oracle (rank 3 / singular values summing to the dimensionality or more /
rank 2) produces a matrix satisfying `goodAffine`. -/
theorem claim6_witness :
    goodAffine (NoConstraints.calculate (N := 1) id (fun _ _ => (fun _ => 0, 3))
      (fun _ _ => 0) (fun _ _ => 0) none) ∧
    goodAffine (ZRotationShear.calculate (N := 1) id (fun _ _ => (fun _ => 0, 3))
      (fun _ _ => 0) (fun _ _ => 0) none) ∧
    goodAffine (ZRotationHscale.calculate (N := 1) id (fun _ _ => (fun _ => 0, 3))
      (fun _ _ => 0) (fun _ _ => 0) none) ∧
    goodAffine (ZRotationHscaleZbaseline.calculate (N := 1) id
      (fun _ _ => (fun _ => 0, 3)) (fun _ _ => 0) (fun _ _ => 0) none) ∧
    goodAffine (Rescale3D.calculate (N := 1) id (fun _ _ => (fun _ => 0, 3))
      (fun _ _ => 0) (fun _ _ => 0) none) ∧
    goodAffine (TranslateOrigins.calculate (N := 1) id (fun _ _ => (fun _ => 0, 3))
      (fun _ _ => 0) (fun _ _ => 0) none) ∧
    goodAffine (ShearYZ.calculate (N := 1) id (fun _ _ => (fun _ => 0, 3))
      (fun _ _ => 0) (fun _ _ => 0) none) ∧
    (∃ A, RotationTranslation3D.calculate (N := 1) (fun _ => (1, ![1, 1, 1], 1))
      (fun _ _ => 0) (fun _ _ => 0) (some fun _ => 1) = some A ∧ goodAffine A) ∧
    goodAffine (RotationTranslationXY.calculate (N := 1) (fun _ => (1, ![1, 1], 1))
      (fun _ _ => 0) (fun _ _ => 0) none) ∧
    goodAffine (QRFactorization.calculate (N := 1) id (fun _ _ => (1, 2))
      (fun _ => (1, 1)) (fun _ _ => 0) (fun _ _ => 0) none) := by
  obtain ⟨h1, h2, h3, h4, h5, h6, h7, h8, h9, h10⟩ :=
    claim6_nondegenerate_results_are_affine
  exact ⟨h1 id 1 _ _ _ none _ 3 rfl le_rfl,
    h2 id 1 _ _ _ none _ 3 rfl le_rfl,
    h3 id 1 _ _ _ none _ 3 rfl le_rfl,
    h4 id 1 _ _ _ none _ 3 rfl le_rfl,
    h5 id 1 _ _ _ none _ 3 rfl le_rfl,
    h6 id 1 _ _ _ none _ 3 rfl le_rfl,
    h7 id 1 _ _ _ none _ 3 rfl le_rfl,
    h8 _ 1 _ _ _ 1 ![1, 1, 1] 1 rfl (by norm_num [Fin.sum_univ_three]),
    h9 _ 1 _ _ none 1 ![1, 1] 1 rfl (by norm_num [Fin.sum_univ_two]),
    h10 id 1 _ _ _ _ none 1 2 rfl le_rfl⟩

/-- C7: when the ordinates exactly equal the absolutes and the system is
non-degenerate, `TranslateOrigins`, `NoConstraints` and
`RotationTranslation3D` each return the identity affine matrix.  The
least-squares conjuncts hypothesise the `scipy.linalg.lstsq` contract on
the oracle's output (minimum-norm least-squares minimiser; for
`NoConstraints` non-degeneracy is an injective weighted design matrix); the
SVD conjunct hypothesises that the SVD factors of the (symmetric, positive
semidefinite) covariance matrix satisfy `Vh = Uᵀ` with `U` orthogonal, as
LAPACK's SVD of a symmetric PSD matrix does. -/
theorem claim7_equal_inputs_give_identity :
    (∀ (sqrtf : ℚ → ℚ) (N : ℕ) (lstsq : LstsqOracle N 3)
      (o a : Fin 3 → Fin N → ℚ) (w : Option (Fin N → ℚ))
      (M_r : Fin 3 → ℚ) (rank : ℕ),
      a = o →
      lstsq (TranslateOrigins.get_weighted_values_mat sqrtf
               (TranslateOrigins.ord_stacked N) w)ᵀ
            (TranslateOrigins.get_weighted_values sqrtf
               (TranslateOrigins.abs_stacked a o) w) = (M_r, rank) →
      IsMinNormLstsq
        (TranslateOrigins.get_weighted_values_mat sqrtf
          (TranslateOrigins.ord_stacked N) w)ᵀ
        (TranslateOrigins.get_weighted_values sqrtf
          (TranslateOrigins.abs_stacked a o) w) M_r →
      3 ≤ rank →
      TranslateOrigins.calculate sqrtf lstsq o a w =
        toNum !![1, 0, 0, 0; 0, 1, 0, 0; 0, 0, 1, 0; 0, 0, 0, 1]) ∧
    (∀ (sqrtf : ℚ → ℚ) (N : ℕ) (lstsq : LstsqOracle N 12)
      (o a : Fin 3 → Fin N → ℚ) (w : Option (Fin N → ℚ))
      (M_r : Fin 12 → ℚ) (rank : ℕ),
      a = o →
      lstsq (LeastSq.get_weighted_values_mat sqrtf (NoConstraints.ord_stacked o) w)ᵀ
            (LeastSq.get_weighted_values sqrtf (LeastSq.get_stacked_absolutes a) w)
          = (M_r, rank) →
      (∀ y, rss (LeastSq.get_weighted_values_mat sqrtf (NoConstraints.ord_stacked o) w)ᵀ
              (LeastSq.get_weighted_values sqrtf (LeastSq.get_stacked_absolutes a) w)
              M_r ≤
            rss (LeastSq.get_weighted_values_mat sqrtf (NoConstraints.ord_stacked o) w)ᵀ
              (LeastSq.get_weighted_values sqrtf (LeastSq.get_stacked_absolutes a) w)
              y) →
      Function.Injective
        (Matrix.mulVec
          (LeastSq.get_weighted_values_mat sqrtf (NoConstraints.ord_stacked o) w)ᵀ) →
      3 ≤ rank →
      NoConstraints.calculate sqrtf lstsq o a w =
        toNum !![1, 0, 0, 0; 0, 1, 0, 0; 0, 0, 1, 0; 0, 0, 0, 1]) ∧
    (∀ (svd : SvdOracle 3) (N : ℕ) (o a : Fin 3 → Fin N → ℚ) (w : Fin N → ℚ)
      (U : Matrix (Fin 3) (Fin 3) ℚ) (S : Fin 3 → ℚ) (Vh : Matrix (Fin 3) (Fin 3) ℚ),
      a = o →
      svd (RotationTranslation3D.covMatrix o a w) = (U, S, Vh) →
      Vh = Uᵀ →
      Uᵀ * U = 1 →
      3 ≤ (∑ i, S i) →
      RotationTranslation3D.calculate svd o a (some w) =
        some (toNum !![1, 0, 0, 0; 0, 1, 0, 0; 0, 0, 1, 0; 0, 0, 0, 1])) := by
  refine ⟨?_, ?_, ?_⟩
  · intro sqrtf N lstsq o a w M_r rank ha heq hmn hge
    subst ha
    have hb : TranslateOrigins.get_weighted_values sqrtf
        (TranslateOrigins.abs_stacked a a) w = fun _ => 0 := by
      have habs : TranslateOrigins.abs_stacked a a = fun _ => (0 : ℚ) := by
        funext p
        obtain ⟨k, c⟩ := p
        fin_cases c <;> simp [TranslateOrigins.abs_stacked]
      cases w with
      | none => funext p; simp [TranslateOrigins.get_weighted_values, habs]
      | some wf => funext p; simp [TranslateOrigins.get_weighted_values, habs]
    rw [hb] at hmn
    have h0 : rss (TranslateOrigins.get_weighted_values_mat sqrtf
        (TranslateOrigins.ord_stacked N) w)ᵀ (fun _ => 0) (fun _ => 0) = 0 := by
      show rss _ (fun _ => 0) 0 = 0
      simp [rss, Matrix.mulVec_zero]
    have hMr0 : rss (TranslateOrigins.get_weighted_values_mat sqrtf
        (TranslateOrigins.ord_stacked N) w)ᵀ (fun _ => 0) M_r = 0 := by
      refine le_antisymm ?_ (rss_nonneg _ _ _)
      have hle := hmn.1 (fun _ => 0)
      rwa [h0] at hle
    have hnorm := hmn.2 (fun _ => 0) (h0.trans hMr0.symm)
    have hn0 : norm2 M_r = 0 := by
      refine le_antisymm ?_ (norm2_nonneg M_r)
      refine le_trans hnorm ?_
      show norm2 (0 : Fin 3 → ℚ) ≤ 0
      simp [norm2]
    have hM : M_r = 0 := (norm2_eq_zero_iff M_r).mp hn0
    simp only [TranslateOrigins.calculate, heq]
    rw [if_neg (not_lt.mpr hge), hM]
    rfl
  · intro sqrtf N lstsq o a w M_r rank ha heq hmin hinj hge
    subst ha
    have hkey : Matrix.mulVec
        (LeastSq.get_weighted_values_mat sqrtf (NoConstraints.ord_stacked a) w)ᵀ
        eVec =
        LeastSq.get_weighted_values sqrtf (LeastSq.get_stacked_absolutes a) w := by
      cases w with
      | none =>
        funext p
        obtain ⟨k, c⟩ := p
        fin_cases c <;>
          simp [Matrix.mulVec, Matrix.dotProduct, Fin.sum_univ_succ,
            LeastSq.get_weighted_values, LeastSq.get_weighted_values_mat,
            LeastSq.get_stacked_absolutes, NoConstraints.ord_stacked, eVec]
      | some wf =>
        funext p
        obtain ⟨k, c⟩ := p
        fin_cases c <;>
          simp [Matrix.mulVec, Matrix.dotProduct, Fin.sum_univ_succ,
            LeastSq.get_weighted_values, LeastSq.get_weighted_values_mat,
            LeastSq.get_stacked_absolutes, NoConstraints.ord_stacked, eVec]
    have h0 : rss (LeastSq.get_weighted_values_mat sqrtf
        (NoConstraints.ord_stacked a) w)ᵀ
        (LeastSq.get_weighted_values sqrtf (LeastSq.get_stacked_absolutes a) w)
        eVec = 0 :=
      (rss_eq_zero_iff _ _ _).mpr hkey
    have hMr0 : rss (LeastSq.get_weighted_values_mat sqrtf
        (NoConstraints.ord_stacked a) w)ᵀ
        (LeastSq.get_weighted_values sqrtf (LeastSq.get_stacked_absolutes a) w)
        M_r = 0 := by
      refine le_antisymm ?_ (rss_nonneg _ _ _)
      have hle := hmin eVec
      rwa [h0] at hle
    have hM : M_r = eVec := by
      apply hinj
      rw [(rss_eq_zero_iff _ _ _).mp hMr0, hkey]
    simp only [NoConstraints.calculate, heq]
    rw [if_neg (not_lt.mpr hge), hM]
    rfl
  · intro svd N o a w U S Vh ha heq hVh hU hge
    subst ha
    have hVhT : Vhᵀ = U := by rw [hVh, Matrix.transpose_transpose]
    have hUUT : U * Uᵀ = 1 := Matrix.mul_eq_one_comm.mp hU
    have f1 : ¬((2 : Fin 3) = 1) := by decide
    have f2 : ¬((1 : Fin 3) = 2) := by decide
    have f3 : ¬((2 : Fin 3) = 0) := by decide
    have f4 : ¬((0 : Fin 3) = 2) := by decide
    have hdet3one : det3 (1 : Matrix (Fin 3) (Fin 3) ℚ) = 1 := by
      simp [det3, Matrix.one_apply, f1, f2, f3, f4]
    have hones : (![1, 1, 1] : Fin 3 → ℚ) = fun _ => 1 := by
      funext i
      fin_cases i <;> rfl
    have hR : Vhᵀ * (Matrix.diagonal ![1, 1, det3 (Vhᵀ * Uᵀ)] * Uᵀ) = 1 := by
      rw [hVhT, hUUT, hdet3one, hones, Matrix.diagonal_one, Matrix.one_mul,
        hUUT]
    simp only [RotationTranslation3D.calculate, heq]
    rw [if_neg (not_lt.mpr hge), hR]
    refine congrArg some (congrArg toNum ?_)
    funext i j
    fin_cases i <;> fin_cases j <;>
      simp [Matrix.one_apply, Matrix.one_mulVec, Matrix.vecHead,
        Matrix.vecTail, f1, f2, f3, f4]

set_option maxHeartbeats 12000000 in
/-- C7 witness: the three conjuncts instantiated at concrete equal
ordinate/absolute samples with concrete solver and SVD oracles satisfying
the hypotheses. -/
theorem claim7_witness :
    TranslateOrigins.calculate (N := 1) id (fun _ _ => (fun _ => 0, 3))
      wOrdA wOrdA none =
      toNum !![1, 0, 0, 0; 0, 1, 0, 0; 0, 0, 1, 0; 0, 0, 0, 1] ∧
    NoConstraints.calculate (N := 4) id (fun _ _ => (eVec, 12))
      wOrdB wOrdB none =
      toNum !![1, 0, 0, 0; 0, 1, 0, 0; 0, 0, 1, 0; 0, 0, 0, 1] ∧
    RotationTranslation3D.calculate (N := 4) (fun _ => (1, ![2, 2, 0], 1))
      wOrdC wOrdC (some fun _ => 1) =
      some (toNum !![1, 0, 0, 0; 0, 1, 0, 0; 0, 0, 1, 0; 0, 0, 0, 1]) := by
  obtain ⟨h1, h2, h3⟩ := claim7_equal_inputs_give_identity
  refine ⟨?_, ?_, ?_⟩
  · have hb : TranslateOrigins.get_weighted_values id
        (TranslateOrigins.abs_stacked wOrdA wOrdA) none = fun _ => 0 := by
      funext p
      obtain ⟨k, c⟩ := p
      fin_cases c <;> simp [TranslateOrigins.get_weighted_values,
        TranslateOrigins.abs_stacked]
    have h0 : rss (TranslateOrigins.get_weighted_values_mat id
        (TranslateOrigins.ord_stacked 1) none)ᵀ
        (TranslateOrigins.get_weighted_values id
          (TranslateOrigins.abs_stacked wOrdA wOrdA) none) (fun _ => 0) = 0 := by
      rw [hb]
      show rss _ _ 0 = 0
      simp [rss, Matrix.mulVec_zero]
    refine h1 id 1 (fun _ _ => (fun _ => 0, 3)) wOrdA wOrdA none
      (fun _ => 0) 3 rfl rfl ⟨?_, ?_⟩ le_rfl
    · intro y
      rw [h0]
      exact rss_nonneg _ _ _
    · intro y _
      have hz : norm2 (fun _ : Fin 3 => (0 : ℚ)) = 0 := by
        show norm2 (0 : Fin 3 → ℚ) = 0
        simp [norm2]
      rw [hz]
      exact norm2_nonneg _
  · have hkey : Matrix.mulVec
        (LeastSq.get_weighted_values_mat id (NoConstraints.ord_stacked wOrdB) none)ᵀ
        eVec =
        LeastSq.get_weighted_values id (LeastSq.get_stacked_absolutes wOrdB) none := by
      funext p
      obtain ⟨k, c⟩ := p
      fin_cases k <;> fin_cases c <;>
        simp [Matrix.mulVec, Matrix.dotProduct, Fin.sum_univ_succ,
          LeastSq.get_weighted_values, LeastSq.get_weighted_values_mat,
          LeastSq.get_stacked_absolutes, NoConstraints.ord_stacked, eVec, wOrdB,
          Matrix.vecHead, Matrix.vecTail]
    refine h2 id 4 (fun _ _ => (eVec, 12)) wOrdB wOrdB none eVec 12 rfl rfl ?_ ?_
      (by norm_num)
    · intro y
      rw [(rss_eq_zero_iff _ _ _).mpr hkey]
      exact rss_nonneg _ _ _
    · intro x y h
      have e00 := congrFun h ((0 : Fin 4), (0 : Fin 3))
      have e10 := congrFun h ((1 : Fin 4), (0 : Fin 3))
      have e20 := congrFun h ((2 : Fin 4), (0 : Fin 3))
      have e30 := congrFun h ((3 : Fin 4), (0 : Fin 3))
      have e01 := congrFun h ((0 : Fin 4), (1 : Fin 3))
      have e11 := congrFun h ((1 : Fin 4), (1 : Fin 3))
      have e21 := congrFun h ((2 : Fin 4), (1 : Fin 3))
      have e31 := congrFun h ((3 : Fin 4), (1 : Fin 3))
      have e02 := congrFun h ((0 : Fin 4), (2 : Fin 3))
      have e12 := congrFun h ((1 : Fin 4), (2 : Fin 3))
      have e22 := congrFun h ((2 : Fin 4), (2 : Fin 3))
      have e32 := congrFun h ((3 : Fin 4), (2 : Fin 3))
      simp only [Matrix.mulVec, Matrix.dotProduct, Finset.sum_fin_eq_sum_range,
        Finset.sum_range_succ, Finset.sum_range_zero, Matrix.transpose_apply,
        LeastSq.get_weighted_values_mat, NoConstraints.ord_stacked, wOrdB,
        Matrix.of_apply, Matrix.cons_val_zero, Matrix.cons_val_one,
        Matrix.head_cons, Matrix.vecHead, Matrix.vecTail, Function.comp,
        Fin.reduceFinMk, Fin.val_ofNat', Nat.reduceDiv, Nat.reduceMod,
        Nat.reduceAdd, zero_mul, one_mul, mul_zero, mul_one, add_zero,
        zero_add] at e00 e10 e20 e30
      norm_num at e00 e10 e20 e30
      simp only [Matrix.mulVec, Matrix.dotProduct, Finset.sum_fin_eq_sum_range,
        Finset.sum_range_succ, Finset.sum_range_zero, Matrix.transpose_apply,
        LeastSq.get_weighted_values_mat, NoConstraints.ord_stacked, wOrdB,
        Matrix.of_apply, Matrix.cons_val_zero, Matrix.cons_val_one,
        Matrix.head_cons, Matrix.vecHead, Matrix.vecTail, Function.comp,
        Fin.reduceFinMk, Fin.val_ofNat', Nat.reduceDiv, Nat.reduceMod,
        Nat.reduceAdd, zero_mul, one_mul, mul_zero, mul_one, add_zero,
        zero_add] at e01 e11 e21 e31
      norm_num at e01 e11 e21 e31
      simp only [Matrix.mulVec, Matrix.dotProduct, Finset.sum_fin_eq_sum_range,
        Finset.sum_range_succ, Finset.sum_range_zero, Matrix.transpose_apply,
        LeastSq.get_weighted_values_mat, NoConstraints.ord_stacked, wOrdB,
        Matrix.of_apply, Matrix.cons_val_zero, Matrix.cons_val_one,
        Matrix.head_cons, Matrix.vecHead, Matrix.vecTail, Function.comp,
        Fin.reduceFinMk, Fin.val_ofNat', Nat.reduceDiv, Nat.reduceMod,
        Nat.reduceAdd, zero_mul, one_mul, mul_zero, mul_one, add_zero,
        zero_add] at e02 e12 e22 e32
      norm_num at e02 e12 e22 e32
      try simp only [Matrix.vecHead, Matrix.vecTail, Function.comp] at e00
      try simp only [Matrix.vecHead, Matrix.vecTail, Function.comp] at e10
      try simp only [Matrix.vecHead, Matrix.vecTail, Function.comp] at e20
      try simp only [Matrix.vecHead, Matrix.vecTail, Function.comp] at e30
      try simp only [Matrix.vecHead, Matrix.vecTail, Function.comp] at e01
      try simp only [Matrix.vecHead, Matrix.vecTail, Function.comp] at e11
      try simp only [Matrix.vecHead, Matrix.vecTail, Function.comp] at e21
      try simp only [Matrix.vecHead, Matrix.vecTail, Function.comp] at e31
      try simp only [Matrix.vecHead, Matrix.vecTail, Function.comp] at e02
      try simp only [Matrix.vecHead, Matrix.vecTail, Function.comp] at e12
      try simp only [Matrix.vecHead, Matrix.vecTail, Function.comp] at e22
      try simp only [Matrix.vecHead, Matrix.vecTail, Function.comp] at e32
      clear h1 h2 h3 h
      funext i
      fin_cases i
      · show x 0 = y 0
        linarith
      · show x 1 = y 1
        linarith
      · show x 2 = y 2
        linarith
      · show x 3 = y 3
        linarith
      · show x 4 = y 4
        linarith
      · show x 5 = y 5
        linarith
      · show x 6 = y 6
        linarith
      · show x 7 = y 7
        linarith
      · show x 8 = y 8
        linarith
      · show x 9 = y 9
        linarith
      · show x 10 = y 10
        linarith
      · show x 11 = y 11
        linarith
  · refine h3 (fun _ => (1, ![2, 2, 0], 1)) 4 wOrdC wOrdC (fun _ => 1)
      1 ![2, 2, 0] 1 rfl rfl ?_ ?_ ?_
    · rw [Matrix.transpose_one]
    · simp [Matrix.transpose_one]
    · norm_num [Fin.sum_univ_three]

/-- C10: the refactored helper pipeline in `geomagio/adjusted/transform/`
computes the same values as the monolithic variants in Transform.py:
`TranslateOrigins`' `get_stacked_values`, `get_weighted_values` (vector and
broadcast forms), `get_matrix` and the composed solve match the original
`TranslateOrigins.calculate`'s stacked dependent vector, design matrix,
weighting, final 4x4 assembly, and full result; likewise
`ZRotationHscaleZbaseline`'s `get_stacked_values`, `format_matrix` and
composed solve match its original `calculate`. -/
theorem claim10_refactored_pipeline_matches_original :
    (∀ (N : ℕ) (a o : Fin 3 → Fin N → ℚ) (w : Option (Fin N → ℚ)),
      TranslateOriginsV2.get_stacked_values a o w =
        (TranslateOrigins.abs_stacked a o, TranslateOrigins.ord_stacked N)) ∧
    (∀ (sqrtf : ℚ → ℚ) (N : ℕ) (values : (Fin N × Fin 3) → ℚ)
      (w : Option (Fin N → ℚ)),
      TranslateOriginsV2.get_weighted_values sqrtf values w =
        TranslateOrigins.get_weighted_values sqrtf values w) ∧
    (∀ (sqrtf : ℚ → ℚ) (m N : ℕ) (values : Matrix (Fin m) (Fin N × Fin 3) ℚ)
      (w : Option (Fin N → ℚ)),
      TranslateOriginsV2.get_weighted_values_mat sqrtf values w =
        TranslateOrigins.get_weighted_values_mat sqrtf values w) ∧
    (∀ M : Fin 3 → ℚ,
      TranslateOriginsV2.get_matrix M =
        toNum !![1, 0, 0, M 0; 0, 1, 0, M 1; 0, 0, 1, M 2; 0, 0, 0, 1]) ∧
    (∀ (sqrtf : ℚ → ℚ) (N : ℕ) (lstsq : LstsqOracle N 3)
      (o a : Fin 3 → Fin N → ℚ) (w : Option (Fin N → ℚ)),
      TranslateOriginsV2.calculate sqrtf lstsq o a w =
        TranslateOrigins.calculate sqrtf lstsq o a w) ∧
    (∀ (N : ℕ) (a o : Fin 3 → Fin N → ℚ),
      ZRotationHscaleZbaselineV2.get_stacked_values a o =
        (ZRotationHscaleZbaseline.abs_stacked a o,
         ZRotationHscaleZbaseline.ord_stacked o)) ∧
    (∀ M : Fin 3 → ℚ,
      ZRotationHscaleZbaselineV2.format_matrix M =
        toNum !![M 0, M 1, 0, 0; -M 1, M 0, 0, 0; 0, 0, 1, M 2; 0, 0, 0, 1]) ∧
    (∀ (sqrtf : ℚ → ℚ) (N : ℕ) (lstsq : LstsqOracle N 3)
      (o a : Fin 3 → Fin N → ℚ) (w : Option (Fin N → ℚ)),
      ZRotationHscaleZbaselineV2.calculate sqrtf lstsq o a w =
        ZRotationHscaleZbaseline.calculate sqrtf lstsq o a w) := by
  refine ⟨?_, ?_, ?_, ?_, ?_, ?_, ?_, ?_⟩
  · intro N a o w
    rfl
  · intro sqrtf N values w
    cases w <;> rfl
  · intro sqrtf m N values w
    cases w <;> rfl
  · intro M
    rfl
  · intro sqrtf N lstsq o a w
    cases w <;> rfl
  · intro N a o
    rfl
  · intro M
    rfl
  · intro sqrtf N lstsq o a w
    cases w <;> rfl
